import Mathlib

/-!
Verification of the authentication and session/token lifecycle of the
discourse.ai backend, as a shallow embedding of the TypeScript sources
in Lean 4.

The repository ships several revisions of the same auth modules, split
by revision markers inside each file.  We embed each revision in its
own namespace:

* MwV1      - apps/api/src/middleware/auth.ts, first revision
              (extractToken, requireAuth, optionalAuth over an
              in-memory session map storing {userId, user}).
* MwV2      - apps/api/src/middleware/auth.ts, second revision
              (requireAuth, optionalAuth over the sessions map
              token -> userId and the users array of routes/auth.ts).
* RoutesV2  - apps/api/src/routes/auth.ts, in-memory revision
              (signup, login, me handlers, hashPassword, toSafeUser).
* RoutesV1  - apps/api/src/routes/auth.ts, database revision
              (signup, login over the drizzle users/sessions tables).
* DbMw      - the database-session revision of requireAuth; its source
              file is not part of the corpus (only its caller is), so
              it is modelled from the specification text.
* Jwt       - apps/api/src/config.ts, third revision (the jwt utils:
              parseDuration, createToken, verifyToken, decodeToken,
              isTokenExpired), embedded at the byte level together
              with models of the external primitives they call
              (JSON.parse / JSON.stringify, base64url, HMAC).

JavaScript runtime conventions used throughout the embedding:
undefined/null results are Option.none, thrown exceptions caught by a
surrounding try/catch are Option.none, JS strings at the token layer
are lists of UTF-8 bytes (List Nat), Date values are naturals.
-/

namespace DiscourseAuth

/-- Outcome of running a Hono middleware on one request: either it
returns a JSON error response itself (the downstream handler is never
invoked), or it calls next() with the context variables userId/user
optionally set. -/
inductive MwOutcome (γ : Type) where
  | halted (status : Nat) (errMsg : String)
  | proceeded (ctx : Option γ)
  deriving DecidableEq, Repr

/-- JS String.prototype.startsWith, over the character list (the
built-in String.startsWith is not kernel-reducible). -/
def strStartsWith (s p : String) : Bool := p.data.isPrefixOf s.data

/-- JS String.prototype.slice with one nonnegative index. -/
def strDrop (s : String) (n : Nat) : String := String.mk (s.data.drop n)

/-- The whitespace characters String.prototype.trim removes. -/
def jsWs (c : Char) : Bool := c = ' ' || c = '\t' || c = '\n' || c = '\r'

/-- JS String.prototype.trim. -/
def strTrim (s : String) : String :=
  String.mk (((s.data.dropWhile jsWs).reverse.dropWhile jsWs).reverse)

/-- apps/api/src/types/index.ts - interface User.  passwordHash,
avatarUrl and bio are optional fields.  Dates are modelled as naturals
(milliseconds since epoch). -/
structure User where
  id : String
  email : String
  username : String
  passwordHash : Option String
  avatarUrl : Option String
  bio : Option String
  emailVerified : Bool
  createdAt : Nat
  updatedAt : Nat
  deriving DecidableEq, Repr

/-- apps/api/src/types/index.ts - SafeUser = Omit User passwordHash. -/
structure SafeUser where
  id : String
  email : String
  username : String
  avatarUrl : Option String
  bio : Option String
  emailVerified : Bool
  createdAt : Nat
  updatedAt : Nat
  deriving DecidableEq, Repr

/-- apps/api/src/utils/index.ts - sanitizeUser: destructures
passwordHash out of the user object and keeps every other field. -/
def sanitizeUser (u : User) : SafeUser :=
  { id := u.id
    email := u.email
    username := u.username
    avatarUrl := u.avatarUrl
    bio := u.bio
    emailVerified := u.emailVerified
    createdAt := u.createdAt
    updatedAt := u.updatedAt }

namespace MwV1

/-- First revision of the in-memory session store: the map value holds
both the user id and the already-sanitized user. -/
structure Sess where
  userId : String
  user : SafeUser
  deriving DecidableEq, Repr

/-- Identity attached to the request context by the middleware. -/
structure Ctx where
  userId : String
  user : SafeUser
  deriving DecidableEq, Repr

/-- The sessions Map of middleware/auth.ts revision 1, as an
association list from token to session value. -/
abbrev SessionStore := List (String × Sess)

def lookupSession (store : SessionStore) (token : String) : Option Sess :=
  (store.find? (fun e => e.1 == token)).map (fun e => e.2)

/-- middleware/auth.ts revision 1, extractToken: require the
Bearer-space prefix, take everything after it, trim whitespace, and
treat the empty remainder as no token (the JS expression token such
that the empty string is falsy). -/
def extractToken (authHeader : Option String) : Option String :=
  match authHeader with
  | none => none
  | some h =>
    if strStartsWith h ("Bearer ") then
      let token := strTrim (strDrop h 7)
      if token = "" then none else some token
    else none

/-- Resolution of a request to an identity in revision 1: extract the
token, then look it up in the session map. -/
def resolve (store : SessionStore) (authHeader : Option String) : Option Ctx :=
  match extractToken authHeader with
  | none => none
  | some t =>
    match lookupSession store t with
    | none => none
    | some s => some { userId := s.userId, user := s.user }

/-- middleware/auth.ts revision 1, requireAuth. -/
def requireAuth (store : SessionStore) (authHeader : Option String) :
    MwOutcome Ctx :=
  match extractToken authHeader with
  | none =>
    .halted 401 ("Authentication required. Please provide a valid token.")
  | some token =>
    match lookupSession store token with
    | none => .halted 401 ("Invalid or expired token. Please log in again.")
    | some s => .proceeded (some { userId := s.userId, user := s.user })

/-- middleware/auth.ts revision 1, optionalAuth. -/
def optionalAuth (store : SessionStore) (authHeader : Option String) :
    MwOutcome Ctx :=
  match extractToken authHeader with
  | none => .proceeded none
  | some token =>
    match lookupSession store token with
    | none => .proceeded none
    | some s => .proceeded (some { userId := s.userId, user := s.user })

end MwV1

namespace MwV2

/-- The trimmed user object the second-revision middleware attaches to
the context: only id, email and username. -/
structure MiniUser where
  id : String
  email : String
  username : String
  deriving DecidableEq, Repr

structure Ctx where
  userId : String
  user : MiniUser
  deriving DecidableEq, Repr

/-- routes/auth.ts revision 2: sessions is a Map token -> userId. -/
abbrev SessionStore := List (String × String)

/-- routes/auth.ts revision 2: StoredUser extends User with a required
passwordHash. -/
structure StoredUser where
  id : String
  email : String
  username : String
  passwordHash : String
  avatarUrl : Option String
  bio : Option String
  emailVerified : Bool
  createdAt : Nat
  updatedAt : Nat
  deriving DecidableEq, Repr

def lookupSession (store : SessionStore) (token : String) : Option String :=
  (store.find? (fun e => e.1 == token)).map (fun e => e.2)

def findUserById (users : List StoredUser) (uid : String) : Option StoredUser :=
  users.find? (fun u => u.id == uid)

/-- Resolution in revision 2: header must start with the Bearer-space
prefix, the remainder (untrimmed, possibly empty) is the token, which
is resolved through the sessions map and then the users array. -/
def resolve (sessions : SessionStore) (users : List StoredUser)
    (authHeader : Option String) : Option Ctx :=
  match authHeader with
  | none => none
  | some h =>
    if strStartsWith h ("Bearer ") then
      let token := strDrop h 7
      match lookupSession sessions token with
      | none => none
      | some uid =>
        match findUserById users uid with
        | none => none
        | some u =>
          some { userId := uid
                 user := { id := u.id, email := u.email, username := u.username } }
    else none

/-- middleware/auth.ts revision 2, requireAuth.  Note that a header
that passes the Bearer-prefix check but carries an empty remainder is
looked up as the empty token and rejected with the invalid-token
message, not the no-token message. -/
def requireAuth (sessions : SessionStore) (users : List StoredUser)
    (authHeader : Option String) : MwOutcome Ctx :=
  match authHeader with
  | none => .halted 401 ("Unauthorized - No token provided")
  | some h =>
    if strStartsWith h ("Bearer ") then
      let token := strDrop h 7
      match lookupSession sessions token with
      | none => .halted 401 ("Unauthorized - Invalid or expired token")
      | some uid =>
        match findUserById users uid with
        | none => .halted 401 ("Unauthorized - User not found")
        | some u =>
          .proceeded (some { userId := uid
                             user := { id := u.id, email := u.email,
                                       username := u.username } })
    else .halted 401 ("Unauthorized - No token provided")

/-- middleware/auth.ts revision 2, optionalAuth. -/
def optionalAuth (sessions : SessionStore) (users : List StoredUser)
    (authHeader : Option String) : MwOutcome Ctx :=
  match authHeader with
  | none => .proceeded none
  | some h =>
    if strStartsWith h ("Bearer ") then
      let token := strDrop h 7
      match lookupSession sessions token with
      | none => .proceeded none
      | some uid =>
        match findUserById users uid with
        | none => .proceeded none
        | some u =>
          .proceeded (some { userId := uid
                             user := { id := u.id, email := u.email,
                                       username := u.username } })
    else .proceeded none

end MwV2

namespace ByteCodec

/-- JS strings and Buffers at the codec layer are lists of bytes. -/
abbrev Bytes := List Nat

/-- All entries are actual byte values. -/
def ByteOK (bs : Bytes) : Prop := ∀ b ∈ bs, b < 256

/-- base64url alphabet (RFC 4648 section 5), value 0..63 to ASCII. -/
def b64UrlChar (v : Nat) : Nat :=
  if v < 26 then 65 + v
  else if v < 52 then 97 + (v - 26)
  else if v < 62 then 48 + (v - 52)
  else if v = 62 then 45
  else 95

/-- standard base64 alphabet, value 0..63 to ASCII. -/
def b64StdChar (v : Nat) : Nat :=
  if v < 26 then 65 + v
  else if v < 52 then 97 + (v - 26)
  else if v < 62 then 48 + (v - 52)
  else if v = 62 then 43
  else 47

/-- Inverse alphabet lookup.  Node's Buffer decoder accepts both the
standard and the url-safe alphabet and skips every other character, so
both alphabets map to values here and anything else is none. -/
def b64ValOf (c : Nat) : Option Nat :=
  if 65 ≤ c ∧ c ≤ 90 then some (c - 65)
  else if 97 ≤ c ∧ c ≤ 122 then some (c - 97 + 26)
  else if 48 ≤ c ∧ c ≤ 57 then some (c - 48 + 52)
  else if c = 45 ∨ c = 43 then some 62
  else if c = 95 ∨ c = 47 then some 63
  else none

/-- Unpadded base64url encoding of a byte sequence (the form jose uses
for compact JWT serialization). -/
def b64urlEncode : Bytes → Bytes
  | [] => []
  | [a] => [b64UrlChar (a / 4), b64UrlChar (a % 4 * 16)]
  | [a, b] =>
    [b64UrlChar (a / 4), b64UrlChar (a % 4 * 16 + b / 16),
     b64UrlChar (b % 16 * 4)]
  | a :: b :: c :: rest =>
    b64UrlChar (a / 4) :: b64UrlChar (a % 4 * 16 + b / 16) ::
    b64UrlChar (b % 16 * 4 + c / 64) :: b64UrlChar (c % 64) ::
    b64urlEncode rest

/-- Padded standard base64 encoding (Node Buffer.toString base64),
used by the temporary hashPassword. -/
def b64PadEncode : Bytes → Bytes
  | [] => []
  | [a] => [b64StdChar (a / 4), b64StdChar (a % 4 * 16), 61, 61]
  | [a, b] =>
    [b64StdChar (a / 4), b64StdChar (a % 4 * 16 + b / 16),
     b64StdChar (b % 16 * 4), 61]
  | a :: b :: c :: rest =>
    b64StdChar (a / 4) :: b64StdChar (a % 4 * 16 + b / 16) ::
    b64StdChar (b % 16 * 4 + c / 64) :: b64StdChar (c % 64) ::
    b64PadEncode rest

/-- Reassemble bytes from a list of 6-bit values; a trailing group of
two or three values yields one or two bytes, a lone value is dropped
(Node semantics for truncated input). -/
def b64Combine : List Nat → Bytes
  | v0 :: v1 :: v2 :: v3 :: rest =>
    (v0 * 4 + v1 / 16) :: (v1 % 16 * 16 + v2 / 4) :: (v2 % 4 * 64 + v3) ::
    b64Combine rest
  | [v0, v1] => [v0 * 4 + v1 / 16]
  | [v0, v1, v2] => [v0 * 4 + v1 / 16, v1 % 16 * 16 + v2 / 4]
  | _ => []

/-- Lenient base64 decoding as performed by Buffer.from: non-alphabet
characters are skipped, then 6-bit groups are reassembled. -/
def b64Decode (s : Bytes) : Bytes := b64Combine (s.filterMap b64ValOf)

/-- UTF-8 encoding of one unicode scalar value. -/
def utf8Char (c : Char) : Bytes :=
  let n := c.toNat
  if n < 128 then [n]
  else if n < 2048 then [192 + n / 64, 128 + n % 64]
  else if n < 65536 then [224 + n / 4096, 128 + n / 64 % 64, 128 + n % 64]
  else [240 + n / 262144, 128 + n / 4096 % 64, 128 + n / 64 % 64, 128 + n % 64]

/-- UTF-8 encoding of a string (Buffer.from with utf-8). -/
def utf8Str (s : String) : Bytes :=
  s.data.foldr (fun c acc => utf8Char c ++ acc) []

/-- Render a list of ASCII bytes back into a Lean string. -/
def asciiStr (bs : Bytes) : String :=
  String.mk (bs.map (fun b => Char.ofNat b))

end ByteCodec

/-- routes/auth.ts revision 2 (and middleware/auth.ts revision 1):
temporary password hashing, Buffer.from(password).toString(base64). -/
def hashPassword (password : String) : String :=
  ByteCodec.asciiStr (ByteCodec.b64PadEncode (ByteCodec.utf8Str password))

/-- verifyPassword: hash the candidate and compare with the stored
hash. -/
def verifyPassword (password hash : String) : Bool :=
  hashPassword password == hash

namespace RoutesV2

open MwV2 (StoredUser)

/-- routes/auth.ts revision 2, toSafeUser: destructure passwordHash
away and keep every other field. -/
def toSafeUser (u : StoredUser) : SafeUser :=
  { id := u.id
    email := u.email
    username := u.username
    avatarUrl := u.avatarUrl
    bio := u.bio
    emailVerified := u.emailVerified
    createdAt := u.createdAt
    updatedAt := u.updatedAt }

/-- The module-level mutable state of routes/auth.ts revision 2: the
users array and the sessions map. -/
structure AuthState where
  users : List StoredUser
  sessions : List (String × String)
  deriving DecidableEq, Repr

/-- Result of a signup/login handler: an error response or a success
response carrying the sanitized user and the session token. -/
inductive AuthResult where
  | err (status : Nat) (message : String)
  | ok (status : Nat) (user : SafeUser) (token : String)
  deriving DecidableEq, Repr

def AuthResult.isOk : AuthResult → Bool
  | .ok _ _ _ => true
  | .err _ _ => false

/-- routes/auth.ts revision 2, POST /signup handler (after body
validation).  The impure id/token generation and the clock are passed
in explicitly. -/
def signup (st : AuthState) (newId token : String) (now : Nat)
    (email username password : String) : AuthResult × AuthState :=
  if (st.users.find? (fun u => u.email == email)).isSome then
    (.err 400 ("Email already registered"), st)
  else if (st.users.find? (fun u => u.username == username)).isSome then
    (.err 400 ("Username already taken"), st)
  else
    let user : StoredUser :=
      { id := newId
        email := email
        username := username
        passwordHash := hashPassword password
        avatarUrl := none
        bio := none
        emailVerified := false
        createdAt := now
        updatedAt := now }
    let st2 : AuthState :=
      { users := st.users ++ [user]
        sessions := st.sessions ++ [(token, user.id)] }
    (.ok 201 (toSafeUser user) token, st2)

/-- routes/auth.ts revision 2, POST /login handler. -/
def login (st : AuthState) (token : String) (email password : String) :
    AuthResult × AuthState :=
  match st.users.find? (fun u => u.email == email) with
  | none => (.err 401 ("Invalid email or password"), st)
  | some user =>
    if verifyPassword password user.passwordHash then
      (.ok 200 (toSafeUser user) token,
       { st with sessions := st.sessions ++ [(token, user.id)] })
    else
      (.err 401 ("Invalid email or password"), st)

/-- Result of the GET /me handler. -/
inductive MeResult where
  | err (status : Nat) (message : String)
  | ok (user : SafeUser)
  deriving DecidableEq, Repr

/-- routes/auth.ts revision 2, GET /me handler (does its own token
check instead of using the middleware). -/
def me (st : AuthState) (authHeader : Option String) : MeResult :=
  match authHeader with
  | none => .err 401 ("Unauthorized")
  | some h =>
    if strStartsWith h ("Bearer ") then
      let token := strDrop h 7
      match MwV2.lookupSession st.sessions token with
      | none => .err 401 ("Invalid or expired token")
      | some uid =>
        match MwV2.findUserById st.users uid with
        | none => .err 404 ("User not found")
        | some u => .ok (toSafeUser u)
    else .err 401 ("Unauthorized")

end RoutesV2

namespace RoutesV1

/-- packages/db/src/schema.ts (the schema document inside
src/packages/db/drizzle.config.ts) - payload of the debate_stats
jsonb column.  JS numbers are modelled as integers; no claim under
study computes with these values. -/
structure DebateStats where
  totalDebates : Int
  wins : Int
  losses : Int
  draws : Int
  avgScore : Int
  deriving DecidableEq, Repr

/-- packages/db/src/schema.ts - payload of the preferences jsonb
column (theme is one of light, dark, system; the five optional visual
settings are numbers). -/
structure Preferences where
  voiceEnabled : Bool
  preferredLanguage : String
  theme : String
  transparency : Option Int
  textContrast : Option Int
  fontSize : Option Int
  blurAmount : Option Int
  borderOpacity : Option Int
  deriving DecidableEq, Repr

/-- packages/db/src/schema.ts, users table row (users.$inferSelect):
id, email, username, passwordHash, createdAt and updatedAt are not
null; avatarUrl and bio are nullable text, and debateStats,
preferences and emailVerified carry database defaults but remain
nullable in the row type.  Timestamps are modelled as naturals. -/
structure DbUser where
  id : String
  email : String
  username : String
  passwordHash : String
  avatarUrl : Option String
  bio : Option String
  debateStats : Option DebateStats
  preferences : Option Preferences
  emailVerified : Option Bool
  createdAt : Nat
  updatedAt : Nat
  deriving DecidableEq, Repr

/-- packages/db/src/schema.ts, sessions table row: generated id, the
owning userId, the unique opaque token, expiresAt, and a defaulted
createdAt. -/
structure DbSession where
  id : String
  userId : String
  token : String
  expiresAt : Nat
  createdAt : Nat
  deriving DecidableEq, Repr

/-- The default value of the debate_stats column. -/
def defaultDebateStats : DebateStats :=
  { totalDebates := 0, wins := 0, losses := 0, draws := 0, avgScore := 0 }

/-- The default value of the preferences column. -/
def defaultPreferences : Preferences :=
  { voiceEnabled := true, preferredLanguage := "en", theme := "system",
    transparency := none, textContrast := none, fontSize := none,
    blurAmount := none, borderOpacity := none }

/-- The database state visible to the auth routes. -/
structure DbState where
  users : List DbUser
  sessions : List DbSession
  deriving DecidableEq, Repr

/-- The sanitized row returned by toSafeUser in the database
revision: every users column except passwordHash. -/
structure DbSafeUser where
  id : String
  email : String
  username : String
  avatarUrl : Option String
  bio : Option String
  debateStats : Option DebateStats
  preferences : Option Preferences
  emailVerified : Option Bool
  createdAt : Nat
  updatedAt : Nat
  deriving DecidableEq, Repr

/-- routes/auth.ts revision 1, toSafeUser: destructure passwordHash
away from the row and keep every other column. -/
def toSafeUser (u : DbUser) : DbSafeUser :=
  { id := u.id
    email := u.email
    username := u.username
    avatarUrl := u.avatarUrl
    bio := u.bio
    debateStats := u.debateStats
    preferences := u.preferences
    emailVerified := u.emailVerified
    createdAt := u.createdAt
    updatedAt := u.updatedAt }

/-- db.query.users.findFirst with eq(users.email, e). -/
def findByEmail (users : List DbUser) (e : String) : Option DbUser :=
  users.find? (fun u => u.email == e)

/-- db.query.users.findFirst with eq(users.username, n). -/
def findByUsername (users : List DbUser) (n : String) : Option DbUser :=
  users.find? (fun u => u.username == n)

/-- Result of a database-revision signup/login handler. -/
inductive AuthResult where
  | err (status : Nat) (message : String)
  | ok (status : Nat) (user : DbSafeUser) (token : String)
  deriving DecidableEq, Repr

def AuthResult.isOk : AuthResult → Bool
  | .ok _ _ _ => true
  | .err _ _ => false

/-- routes/auth.ts revision 1, POST /signup handler over the database
(insert modelled as append; the generated row ids, the session token,
the clock and the session expiry are passed in explicitly).  The row
returned by insert(...).returning() carries the database column
defaults: null avatarUrl and bio, the default debateStats and
preferences payloads, emailVerified false, and now-valued
timestamps. -/
def signup (st : DbState) (newId sessId token : String) (now expiry : Nat)
    (email username password : String) : AuthResult × DbState :=
  if (findByEmail st.users email).isSome then
    (.err 409 ("An account with this email already exists"), st)
  else if (findByUsername st.users username).isSome then
    (.err 409 ("This username is already taken"), st)
  else
    let user : DbUser :=
      { id := newId
        email := email
        username := username
        passwordHash := hashPassword password
        avatarUrl := none
        bio := none
        debateStats := some defaultDebateStats
        preferences := some defaultPreferences
        emailVerified := some false
        createdAt := now
        updatedAt := now }
    let st2 : DbState :=
      { users := st.users ++ [user]
        sessions := st.sessions ++
          [{ id := sessId, userId := user.id, token := token,
             expiresAt := expiry, createdAt := now }] }
    (.ok 201 (toSafeUser user) token, st2)

/-- routes/auth.ts revision 1, POST /login handler. -/
def login (st : DbState) (sessId token : String) (now expiry : Nat)
    (email password : String) : AuthResult × DbState :=
  match findByEmail st.users email with
  | none => (.err 401 ("Invalid email or password"), st)
  | some user =>
    if verifyPassword password user.passwordHash then
      (.ok 200 (toSafeUser user) token,
       { st with sessions := st.sessions ++
           [{ id := sessId, userId := user.id, token := token,
              expiresAt := expiry, createdAt := now }] })
    else
      (.err 401 ("Invalid email or password"), st)

end RoutesV1

namespace DbMw

/-- Identity attached to the request context by the database-session
middleware. -/
structure Ctx where
  userId : String
  user : RoutesV1.DbSafeUser
  deriving DecidableEq, Repr

/-- Modelled from the spec: the database-session revision of
requireAuth (the revision of middleware/auth.ts that routes/auth.ts
revision 1 imports, absent from the corpus).  Per the spec: extract
the bearer token; look up the Session by token; if found, compare its
expiry to the current time; if expired, delete the Session row
(cleanup-on-access) and treat as not found; otherwise fetch the
associated Credential Record and attach it to the context.  The
returned session list is the table after the request. -/
def requireAuth (users : List RoutesV1.DbUser)
    (sessions : List RoutesV1.DbSession) (now : Nat)
    (authHeader : Option String) : MwOutcome Ctx × List RoutesV1.DbSession :=
  match MwV1.extractToken authHeader with
  | none => (.halted 401 ("Authentication required"), sessions)
  | some token =>
    match sessions.find? (fun s => s.token == token) with
    | none => (.halted 401 ("Invalid or expired token"), sessions)
    | some s =>
      if s.expiresAt < now then
        (.halted 401 ("Invalid or expired token"),
         sessions.filter (fun r => ! (r.token == token)))
      else
        match users.find? (fun u => u.id == s.userId) with
        | none => (.halted 401 ("Invalid or expired token"), sessions)
        | some u =>
          (.proceeded (some { userId := u.id, user := RoutesV1.toSafeUser u }),
           sessions)

/-- Modelled from the spec: getSessionExpiry of the database revision
of middleware/auth.ts, now plus the fixed 7-day session TTL. -/
def getSessionExpiry (now : Nat) : Nat :=
  now + 7 * 24 * 60 * 60 * 1000

end DbMw

namespace Jwt

open ByteCodec

/-- JSON values over byte-level strings (the dynamic values produced
by JSON.parse).  Numbers are modelled as exact decimals: num n for an
integer value, numFrac m s for the non-integer value m divided by ten
to the s, in lowest decimal terms.  JS numbers are IEEE doubles, but
no claim under study depends on rounding, so the exact-decimal
idealization is used. -/
inductive Json where
  | null
  | tru
  | fals
  | num (n : Int)
  | numFrac (m : Int) (scale : Nat)
  | str (s : Bytes)
  | arr (xs : List Json)
  | obj (ms : List (Bytes × Json))

/-- ASCII bytes of a Lean string literal (used for JSON keys and fixed
JSON fragments, which are all ASCII). -/
def ascii (s : String) : Bytes := s.data.map Char.toNat

/-- Lowercase hex digit. -/
def hexChar (v : Nat) : Nat := if v < 10 then 48 + v else 97 + (v - 10)

/-- JSON.stringify escaping of one byte of a string value: quote and
backslash are escaped, the named control characters get their short forms,
other control bytes become a u00xx escape, everything else passes
through. -/
def escByte (b : Nat) : Bytes :=
  if b = 34 then [92, 34]
  else if b = 92 then [92, 92]
  else if b = 8 then [92, 98]
  else if b = 9 then [92, 116]
  else if b = 10 then [92, 110]
  else if b = 12 then [92, 102]
  else if b = 13 then [92, 114]
  else if b < 32 then [92, 117, 48, 48, hexChar (b / 16), hexChar (b % 16)]
  else [b]

def escBytes : Bytes → Bytes
  | [] => []
  | b :: r => escByte b ++ escBytes r

/-- A JSON string literal: quote, escaped body, quote. -/
def strLit (s : Bytes) : Bytes := 34 :: (escBytes s ++ [34])

/-- Decimal digits of a natural, fuelled so that the definition
reduces by evaluation. -/
def natLitAux : Nat → Nat → Bytes
  | 0, _ => []
  | f + 1, n => if n < 10 then [48 + n] else natLitAux f (n / 10) ++ [48 + n % 10]

def natLit (n : Nat) : Bytes := natLitAux (n + 1) n

/-- The serialized protected header of every token the app signs:
the JSON text of an object with alg set to HS256. -/
def headerBytes : Bytes :=
  123 :: (strLit (ascii "alg") ++ 58 :: (strLit (ascii "HS256") ++ [125]))

/-- The serialized claims object built by createToken: the custom
userId and email claims, then the iat, exp and sub registered claims,
in the insertion order JSON.stringify preserves. -/
def payloadBytes (uid email : Bytes) (iat expSec : Nat) : Bytes :=
  123 :: (strLit (ascii "userId") ++ 58 :: (strLit uid ++ 44 ::
    (strLit (ascii "email") ++ 58 :: (strLit email ++ 44 ::
    (strLit (ascii "iat") ++ 58 :: (natLit iat ++ 44 ::
    (strLit (ascii "exp") ++ 58 :: (natLit expSec ++ 44 ::
    (strLit (ascii "sub") ++ 58 :: (strLit uid ++ [125]))))))))))

/-- The JSON value the payload text denotes. -/
def payloadJson (uid email : Bytes) (iat expSec : Nat) : Json :=
  .obj [(ascii "userId", .str uid), (ascii "email", .str email),
        (ascii "iat", .num iat), (ascii "exp", .num expSec),
        (ascii "sub", .str uid)]

/-- Modelled symbolic HMAC-SHA256: an executable keyed function of the
secret and the signing input.  The claims under study depend only on
the signature being a deterministic function recomputed and compared
by the verifier, not on any cryptographic property. -/
def macBytes (secret msg : Bytes) : Bytes :=
  77 :: (natLit secret.length ++ 58 :: (secret ++ 58 :: msg))

/-- The signing input of compact serialization: header and payload
segments joined by a dot. -/
def signingInput (h64 p64 : Bytes) : Bytes := h64 ++ 46 :: p64

/-- jose compact serialization as performed by SignJWT.sign:
base64url(header).base64url(payload).base64url(signature). -/
def signCompact (secret uid email : Bytes) (iat expSec : Nat) : Bytes :=
  let h64 := b64urlEncode headerBytes
  let p64 := b64urlEncode (payloadBytes uid email iat expSec)
  h64 ++ 46 :: (p64 ++ 46 :: b64urlEncode (macBytes secret (signingInput h64 p64)))

/-- config.ts revision 3 (the jwt utils), parseDuration: a string of
digits followed by a single unit character d, h, m or s, converted to
seconds; anything else throws (modelled as none). -/
def parseDuration (s : String) : Option Nat :=
  match s.data.getLast? with
  | none => none
  | some u =>
    let ds := s.data.dropLast
    if ds ≠ [] ∧ ds.all (fun c => c.isDigit) then
      let v := ds.foldl (fun acc c => acc * 10 + (c.toNat - 48)) 0
      if u = 'd' then some (v * 24 * 60 * 60)
      else if u = 'h' then some (v * 60 * 60)
      else if u = 'm' then some (v * 60)
      else if u = 's' then some v
      else none
    else none

/-- config.ts revision 3, createToken: payload with userId, email,
issued-at now and expiry now plus the TTL parsed from the configured
duration string, signed with the server secret.  The none case models
the module-load throw on an invalid duration configuration. -/
def createToken (secret : Bytes) (jwtExpiresIn : String) (now : Nat)
    (uid email : Bytes) : Option Bytes :=
  (parseDuration jwtExpiresIn).map
    (fun T => signCompact secret uid email now (now + T))

/-- String.prototype.split on one separator byte. -/
def splitOnByte (d : Nat) : Bytes → List Bytes
  | [] => [[]]
  | c :: r =>
    match splitOnByte d r with
    | [] => [[c]]
    | p :: ps => if c = d then [] :: p :: ps else (c :: p) :: ps

def isDigitB (c : Nat) : Bool := 48 ≤ c ∧ c ≤ 57

/-- Skip JSON whitespace. -/
def skipWs : Bytes → Bytes
  | [] => []
  | c :: r => if c = 32 ∨ c = 9 ∨ c = 10 ∨ c = 13 then skipWs r else c :: r

def hexVal (c : Nat) : Option Nat :=
  if 48 ≤ c ∧ c ≤ 57 then some (c - 48)
  else if 97 ≤ c ∧ c ≤ 102 then some (c - 97 + 10)
  else if 65 ≤ c ∧ c ≤ 70 then some (c - 65 + 10)
  else none

/-- UTF-8 bytes of a code point (for u-escapes in parsed strings). -/
def utf8OfCp (n : Nat) : Bytes :=
  if n < 128 then [n]
  else if n < 2048 then [192 + n / 64, 128 + n % 64]
  else if n < 65536 then [224 + n / 4096, 128 + n / 64 % 64, 128 + n % 64]
  else [240 + n / 262144, 128 + n / 4096 % 64, 128 + n / 64 % 64, 128 + n % 64]

/-- Body of a JSON string literal after the opening quote: bytes up to
the closing quote, with escapes resolved; none models a parse error
thrown by JSON.parse. -/
def parseStrBody : Bytes → Option (Bytes × Bytes)
  | [] => none
  | c :: r =>
    if c = 34 then some ([], r)
    else if c = 92 then
      match r with
      | [] => none
      | e :: r2 =>
        if e = 34 then (parseStrBody r2).map (fun p => (34 :: p.1, p.2))
        else if e = 92 then (parseStrBody r2).map (fun p => (92 :: p.1, p.2))
        else if e = 47 then (parseStrBody r2).map (fun p => (47 :: p.1, p.2))
        else if e = 98 then (parseStrBody r2).map (fun p => (8 :: p.1, p.2))
        else if e = 102 then (parseStrBody r2).map (fun p => (12 :: p.1, p.2))
        else if e = 110 then (parseStrBody r2).map (fun p => (10 :: p.1, p.2))
        else if e = 114 then (parseStrBody r2).map (fun p => (13 :: p.1, p.2))
        else if e = 116 then (parseStrBody r2).map (fun p => (9 :: p.1, p.2))
        else if e = 117 then
          match r2 with
          | h1 :: h2 :: h3 :: h4 :: r3 =>
            match hexVal h1, hexVal h2, hexVal h3, hexVal h4 with
            | some a, some b, some c2, some d =>
              (parseStrBody r3).map
                (fun p => (utf8OfCp (a * 4096 + b * 256 + c2 * 16 + d) ++ p.1, p.2))
            | _, _, _, _ => none
          | _ => none
        else none
    else if c < 32 then none
    else (parseStrBody r).map (fun p => (c :: p.1, p.2))

/-- Consume a run of digits, extending the accumulator. -/
def parseDigits : Bytes → Nat → Nat × Bytes
  | [], acc => (acc, [])
  | c :: r, acc =>
    if isDigitB c then parseDigits r (acc * 10 + (c - 48)) else (acc, c :: r)

/-- Consume a run of digits, extending the accumulator and counting
the digits consumed (a fraction carries its decimal length). -/
def parseDigitsCnt : Bytes → Nat → Nat → Nat × Nat × Bytes
  | [], acc, cnt => (acc, cnt, [])
  | c :: r, acc, cnt =>
    if isDigitB c then parseDigitsCnt r (acc * 10 + (c - 48)) (cnt + 1)
    else (acc, cnt, c :: r)

/-- The digits after the decimal point: at least one is required. -/
def parseFracPart : Bytes → Option (Nat × Nat × Bytes)
  | [] => none
  | c :: r => if isDigitB c then some (parseDigitsCnt r (c - 48) 1) else none

/-- The digits of an exponent: at least one is required. -/
def parseExpDigits : Bytes → Option (Nat × Bytes)
  | [] => none
  | c :: r => if isDigitB c then some (parseDigits r (c - 48)) else none

/-- The exponent after the e or E marker: an optional sign, then
digits. -/
def parseExpPart : Bytes → Option (Int × Bytes)
  | [] => none
  | c :: r =>
    if c = 43 then (parseExpDigits r).map (fun p => ((p.1 : Int), p.2))
    else if c = 45 then (parseExpDigits r).map (fun p => (-(p.1 : Int), p.2))
    else (parseExpDigits (c :: r)).map (fun p => ((p.1 : Int), p.2))

/-- Cancel trailing decimal zeros against the scale, putting an exact
decimal in lowest terms. -/
def stripZeros : Nat → Nat → Nat × Nat
  | m, 0 => (m, 0)
  | m, s + 1 => if m % 10 = 0 then stripZeros (m / 10) s else (m, s + 1)

def applySign (neg : Bool) (m : Nat) : Int :=
  if neg then -(m : Int) else (m : Int)

/-- Assemble the parsed sign, integer part, fraction and exponent into
a Json number: the exact decimal value intPart.frac times ten to the
expVal, as num when integral and numFrac in lowest terms otherwise. -/
def mkNum (neg : Bool) (intPart fracVal fracLen : Nat) (expVal : Int) : Json :=
  let M := intPart * 10 ^ fracLen + fracVal
  if (fracLen : Int) ≤ expVal then
    .num (applySign neg (M * 10 ^ (expVal - (fracLen : Int)).toNat))
  else
    match stripZeros M ((fracLen : Int) - expVal).toNat with
    | (m, 0) => .num (applySign neg m)
    | (m, s + 1) => .numFrac (applySign neg m) (s + 1)

/-- The optional exponent part of a number. -/
def parseNumExp (neg : Bool) (intPart fracVal fracLen : Nat) :
    Bytes → Option (Json × Bytes)
  | [] => some (mkNum neg intPart fracVal fracLen 0, [])
  | c :: r =>
    if c = 101 ∨ c = 69 then
      (parseExpPart r).map (fun p => (mkNum neg intPart fracVal fracLen p.1, p.2))
    else some (mkNum neg intPart fracVal fracLen 0, c :: r)

/-- The optional fraction part of a number, then its exponent part. -/
def parseNumRest (neg : Bool) (intPart : Nat) : Bytes → Option (Json × Bytes)
  | [] => parseNumExp neg intPart 0 0 []
  | c :: r =>
    if c = 46 then
      match parseFracPart r with
      | none => none
      | some (fv, fl, r2) => parseNumExp neg intPart fv fl r2
    else parseNumExp neg intPart 0 0 (c :: r)

/-- A JSON number after its optional minus sign, with the JSON.parse
grammar: the integer part is a single zero or starts with a nonzero
digit (a zero followed by more digits stops after the zero, which in
every JSON context makes the enclosing parse fail, as JSON.parse
rejects leading zeros), then an optional fraction and exponent. -/
def parseNumber (neg : Bool) : Bytes → Option (Json × Bytes)
  | [] => none
  | c :: r =>
    if c = 48 then parseNumRest neg 0 r
    else if isDigitB c then
      parseNumRest neg (parseDigits r (c - 48)).1 (parseDigits r (c - 48)).2
    else none

/-- Mode of the recursive-descent JSON parser: a whole value, the body
of an object or array just after its opening bracket, or the member or
element list with the accumulated prefix. -/
inductive PMode where
  | val
  | objBody
  | objMembers (acc : List (Bytes × Json))
  | arrBody
  | arrElems (acc : List Json)

/-- Fuelled recursive-descent JSON parser modelling JSON.parse; the
fuel only bounds recursion and is chosen large enough by jsonParse. -/
def parseCore : Nat → PMode → Bytes → Option (Json × Bytes)
  | 0, _, _ => none
  | f + 1, .val, s =>
    match skipWs s with
    | [] => none
    | c :: r =>
      if c = 34 then (parseStrBody r).map (fun p => (Json.str p.1, p.2))
      else if c = 123 then parseCore f .objBody r
      else if c = 91 then parseCore f .arrBody r
      else if c = 45 then parseNumber true r
      else if isDigitB c then parseNumber false (c :: r)
      else if c = 110 then
        match r with
        | 117 :: 108 :: 108 :: r2 => some (.null, r2)
        | _ => none
      else if c = 116 then
        match r with
        | 114 :: 117 :: 101 :: r2 => some (.tru, r2)
        | _ => none
      else if c = 102 then
        match r with
        | 97 :: 108 :: 115 :: 101 :: r2 => some (.fals, r2)
        | _ => none
      else none
  | f + 1, .objBody, s =>
    match skipWs s with
    | 125 :: r => some (.obj [], r)
    | s2 => parseCore f (.objMembers []) s2
  | f + 1, .objMembers acc, s =>
    match skipWs s with
    | 34 :: r =>
      match parseStrBody r with
      | none => none
      | some (key, r2) =>
        match skipWs r2 with
        | 58 :: r3 =>
          match parseCore f .val r3 with
          | none => none
          | some (v, r4) =>
            match skipWs r4 with
            | 44 :: r5 => parseCore f (.objMembers (acc ++ [(key, v)])) r5
            | 125 :: r5 => some (.obj (acc ++ [(key, v)]), r5)
            | _ => none
        | _ => none
    | _ => none
  | f + 1, .arrBody, s =>
    match skipWs s with
    | 93 :: r => some (.arr [], r)
    | s2 => parseCore f (.arrElems []) s2
  | f + 1, .arrElems acc, s =>
    match parseCore f .val s with
    | none => none
    | some (v, r) =>
      match skipWs r with
      | 44 :: r2 => parseCore f (.arrElems (acc ++ [v])) r2
      | 93 :: r2 => some (.arr (acc ++ [v]), r2)
      | _ => none

/-- Parse one JSON value. -/
def parseVal (f : Nat) (s : Bytes) : Option (Json × Bytes) :=
  parseCore f .val s

/-- JSON.parse: parse one value with ample fuel and require only
whitespace to remain. -/
def jsonParse (s : Bytes) : Option Json :=
  match parseVal (s.length + 16) s with
  | some (v, r) => if skipWs r = [] then some v else none
  | none => none

/-- Property lookup on a parsed object; with duplicate keys the last
occurrence wins, as in JSON.parse.  On a non-object value the lookup
yields undefined (none), as JS property access does. -/
def lookLast (ms : List (Bytes × Json)) (k : Bytes) : Option Json :=
  match ms with
  | [] => none
  | (k2, v) :: r =>
    match lookLast r k with
    | some w => some w
    | none => if k2 = k then some v else none

def objLookup (j : Json) (k : Bytes) : Option Json :=
  match j with
  | .obj ms => lookLast ms k
  | _ => none

/-- The four fields the jwt utils read off a decoded payload.  Each is
the raw JSON value found at the key, or none for undefined (the source
casts without checking, so a mistyped or missing claim flows through). -/
structure DecodedPayload where
  userId : Option Json
  email : Option Json
  iat : Option Json
  exp : Option Json

/-- config.ts revision 3, verifyToken, together with the jose
jwtVerify contract it wraps: split the compact serialization, parse
the protected header, accept only the HS256 algorithm, recompute and
compare the signature over the signing input, parse the claims, and
reject an exp claim not strictly in the future; every failure throws
inside jose and is caught by verifyToken, which returns null. -/
def verifyToken (secret : Bytes) (now : Nat) (token : Bytes) :
    Option DecodedPayload :=
  match splitOnByte 46 token with
  | [h64, p64, s64] =>
    match jsonParse (b64Decode h64) with
    | none => none
    | some hj =>
      match objLookup hj (ascii "alg") with
      | some (.str a) =>
        if a = ascii "HS256" then
          if b64Decode s64 = macBytes secret (signingInput h64 p64) then
            match jsonParse (b64Decode p64) with
            | none => none
            | some pj =>
              match objLookup pj (ascii "exp") with
              | some (.num e) =>
                if e ≤ (now : Int) then none
                else
                  some { userId := objLookup pj (ascii "userId")
                         email := objLookup pj (ascii "email")
                         iat := objLookup pj (ascii "iat")
                         exp := objLookup pj (ascii "exp") }
              | some (.numFrac m s) =>
                if m ≤ (now : Int) * 10 ^ s then none
                else
                  some { userId := objLookup pj (ascii "userId")
                         email := objLookup pj (ascii "email")
                         iat := objLookup pj (ascii "iat")
                         exp := objLookup pj (ascii "exp") }
              | some _ => none
              | none =>
                some { userId := objLookup pj (ascii "userId")
                       email := objLookup pj (ascii "email")
                       iat := objLookup pj (ascii "iat")
                       exp := objLookup pj (ascii "exp") }
          else none
        else none
      | _ => none
  | _ => none

/-- config.ts revision 3, decodeToken: split on dots, require exactly
three segments, base64url-decode the middle one, JSON.parse it, and
read the four claim fields; a parse failure, or property access on a
null payload, throws and is caught, yielding null.  Here splitting
into exactly three parts embeds the length check of the source. -/
def decodeToken (token : Bytes) : Option DecodedPayload :=
  match splitOnByte 46 token with
  | [_, p64, _] =>
    match jsonParse (b64Decode p64) with
    | none => none
    | some .null => none
    | some pj =>
      some { userId := objLookup pj (ascii "userId")
             email := objLookup pj (ascii "email")
             iat := objLookup pj (ascii "iat")
             exp := objLookup pj (ascii "exp") }
  | _ => none

end Jwt

/-- No two records agree on the given projection (the uniqueness
invariant the credential store maintains for email and username). -/
def noDupBy {α : Type} (f : α → String) (l : List α) : Prop :=
  (l.map f).Nodup

/-- C1: for every request to a route guarded by requireAuth, if the
Authorization header is absent, malformed, or its token does not
resolve to an identity, the downstream handler is never invoked and a
401 response is returned instead; the handler runs only when
resolution succeeds and the resolved identity is attached to the
request context.  Stated for both revisions of the middleware: the
middleware outcome is proceeded with exactly the resolved identity
when resolution succeeds, and a 401 halt otherwise. -/
theorem C1_requireAuth_blocks_unless_resolved :
    (∀ (store : MwV1.SessionStore) (h : Option String),
      match MwV1.resolve store h with
      | some ctx => MwV1.requireAuth store h = .proceeded (some ctx)
      | none => ∃ m, MwV1.requireAuth store h = .halted 401 m) ∧
    (∀ (sessions : MwV2.SessionStore) (users : List MwV2.StoredUser)
        (h : Option String),
      match MwV2.resolve sessions users h with
      | some ctx => MwV2.requireAuth sessions users h = .proceeded (some ctx)
      | none => ∃ m, MwV2.requireAuth sessions users h = .halted 401 m) := by
  constructor
  · intro store h
    rcases hE : MwV1.extractToken h with _ | t
    · simp only [MwV1.resolve, MwV1.requireAuth, hE]
      exact ⟨_, rfl⟩
    · rcases hL : MwV1.lookupSession store t with _ | s
      · simp only [MwV1.resolve, MwV1.requireAuth, hE, hL]
        exact ⟨_, rfl⟩
      · simp only [MwV1.resolve, MwV1.requireAuth, hE, hL]
  · intro S U h
    rcases h with _ | hs
    · simp only [MwV2.resolve, MwV2.requireAuth]
      exact ⟨_, rfl⟩
    · rcases hb : strStartsWith hs ("Bearer ") with _ | _
      · simp only [MwV2.resolve, MwV2.requireAuth, hb, Bool.false_eq_true,
          if_false]
        exact ⟨_, rfl⟩
      · rcases hL : MwV2.lookupSession S (strDrop hs 7) with _ | uid
        · simp only [MwV2.resolve, MwV2.requireAuth, hb, if_true, hL]
          exact ⟨_, rfl⟩
        · rcases hU : MwV2.findUserById U uid with _ | u
          · simp only [MwV2.resolve, MwV2.requireAuth, hb, if_true, hL, hU]
            exact ⟨_, rfl⟩
          · simp only [MwV2.resolve, MwV2.requireAuth, hb, if_true, hL, hU]

/-- C9: optionalAuth always invokes the downstream handler, and the
request context carries an attached identity exactly when token
extraction and resolution succeeded; on failure the request proceeds
unauthenticated.  Stated for both revisions: the middleware outcome is
proceeded with exactly the optional resolved identity. -/
theorem C9_optionalAuth_always_proceeds :
    (∀ (store : MwV1.SessionStore) (h : Option String),
      MwV1.optionalAuth store h = .proceeded (MwV1.resolve store h)) ∧
    (∀ (sessions : MwV2.SessionStore) (users : List MwV2.StoredUser)
        (h : Option String),
      MwV2.optionalAuth sessions users h =
        .proceeded (MwV2.resolve sessions users h)) := by
  constructor
  · intro store h
    rcases hE : MwV1.extractToken h with _ | t
    · simp only [MwV1.resolve, MwV1.optionalAuth, hE]
    · rcases hL : MwV1.lookupSession store t with _ | s
      · simp only [MwV1.resolve, MwV1.optionalAuth, hE, hL]
      · simp only [MwV1.resolve, MwV1.optionalAuth, hE, hL]
  · intro S U h
    rcases h with _ | hs
    · simp only [MwV2.resolve, MwV2.optionalAuth]
    · rcases hb : strStartsWith hs ("Bearer ") with _ | _
      · simp only [MwV2.resolve, MwV2.optionalAuth, hb, Bool.false_eq_true,
          if_false]
      · rcases hL : MwV2.lookupSession S (strDrop hs 7) with _ | uid
        · simp only [MwV2.resolve, MwV2.optionalAuth, hb, if_true, hL]
        · rcases hU : MwV2.findUserById U uid with _ | u
          · simp only [MwV2.resolve, MwV2.optionalAuth, hb, if_true, hL, hU]
          · simp only [MwV2.resolve, MwV2.optionalAuth, hb, if_true, hL, hU]

/-- C4, counterexample: the claim asserts that a header carrying no
token after the Bearer prefix is answered with the
authentication-required (no-token) message in both middleware
revisions.  In revision 2 the header consisting of exactly the
Bearer-space prefix passes the prefix check, the empty remainder is
looked up as a token, and the response carries the invalid-token
message instead. -/
theorem C4_counterexample :
    MwV2.requireAuth [] [] (some ("Bearer ")) =
      .halted 401 ("Unauthorized - Invalid or expired token") ∧
    ("Unauthorized - Invalid or expired token" : String) ≠
      "Unauthorized - No token provided" := by
  exact ⟨rfl, by decide⟩

/-- C4, amended: in the revision-1 middleware (the one using
extractToken), every malformed header - absent, wrong scheme, or
nothing after the Bearer prefix - is treated as no token and answered
with the authentication-required message.  In the revision-2
middleware, absent headers and wrong-scheme headers get the no-token
message, while a header whose Bearer remainder fails the session
lookup (in particular the empty remainder) gets the invalid-token
message; in every such case the response status is 401. -/
theorem C4_extraction_amended :
    (∀ h : String,
      (strStartsWith h ("Bearer ") = false ∨ strTrim (strDrop h 7) = "") →
      MwV1.extractToken (some h) = none) ∧
    (MwV1.extractToken none = none) ∧
    (∀ (store : MwV1.SessionStore) (h : Option String),
      MwV1.extractToken h = none →
      MwV1.requireAuth store h =
        .halted 401 ("Authentication required. Please provide a valid token.")) ∧
    (∀ (S : MwV2.SessionStore) (U : List MwV2.StoredUser),
      MwV2.requireAuth S U none = .halted 401 ("Unauthorized - No token provided")) ∧
    (∀ (S : MwV2.SessionStore) (U : List MwV2.StoredUser) (h : String),
      strStartsWith h ("Bearer ") = false →
      MwV2.requireAuth S U (some h) =
        .halted 401 ("Unauthorized - No token provided")) ∧
    (∀ (S : MwV2.SessionStore) (U : List MwV2.StoredUser) (h : String),
      strStartsWith h ("Bearer ") = true →
      MwV2.lookupSession S (strDrop h 7) = none →
      MwV2.requireAuth S U (some h) =
        .halted 401 ("Unauthorized - Invalid or expired token")) := by
  refine ⟨?_, rfl, ?_, ?_, ?_, ?_⟩
  · intro h hc
    unfold MwV1.extractToken
    rcases hc with hc | hc
    · simp [hc]
    · simp [hc]
  · intro store h hE
    unfold MwV1.requireAuth
    rw [hE]
  · intro S U
    rfl
  · intro S U h hb
    unfold MwV2.requireAuth
    simp [hb]
  · intro S U h hb hlu
    unfold MwV2.requireAuth
    simp [hb, hlu]

/-- C2: the user object included in any signup, login, or me response
equals the stored record with exactly the passwordHash field removed
and every other field unchanged, and no response at the public
interface carries a passwordHash field.  Stated as: sanitizeUser and
both toSafeUser variants preserve every non-password field and are
unaffected by the password hash, and every successful signup, login
and me response carries the sanitized image of a stored record. -/
theorem C2_password_hash_never_exposed :
    (∀ u : User,
      (sanitizeUser u).id = u.id ∧ (sanitizeUser u).email = u.email ∧
      (sanitizeUser u).username = u.username ∧
      (sanitizeUser u).avatarUrl = u.avatarUrl ∧
      (sanitizeUser u).bio = u.bio ∧
      (sanitizeUser u).emailVerified = u.emailVerified ∧
      (sanitizeUser u).createdAt = u.createdAt ∧
      (sanitizeUser u).updatedAt = u.updatedAt) ∧
    (∀ (u : User) (ph : Option String),
      sanitizeUser { u with passwordHash := ph } = sanitizeUser u) ∧
    (∀ u : MwV2.StoredUser,
      (RoutesV2.toSafeUser u).id = u.id ∧
      (RoutesV2.toSafeUser u).email = u.email ∧
      (RoutesV2.toSafeUser u).username = u.username ∧
      (RoutesV2.toSafeUser u).avatarUrl = u.avatarUrl ∧
      (RoutesV2.toSafeUser u).bio = u.bio ∧
      (RoutesV2.toSafeUser u).emailVerified = u.emailVerified ∧
      (RoutesV2.toSafeUser u).createdAt = u.createdAt ∧
      (RoutesV2.toSafeUser u).updatedAt = u.updatedAt) ∧
    (∀ u : RoutesV1.DbUser,
      (RoutesV1.toSafeUser u).id = u.id ∧
      (RoutesV1.toSafeUser u).email = u.email ∧
      (RoutesV1.toSafeUser u).username = u.username ∧
      (RoutesV1.toSafeUser u).avatarUrl = u.avatarUrl ∧
      (RoutesV1.toSafeUser u).bio = u.bio ∧
      (RoutesV1.toSafeUser u).debateStats = u.debateStats ∧
      (RoutesV1.toSafeUser u).preferences = u.preferences ∧
      (RoutesV1.toSafeUser u).emailVerified = u.emailVerified ∧
      (RoutesV1.toSafeUser u).createdAt = u.createdAt ∧
      (RoutesV1.toSafeUser u).updatedAt = u.updatedAt) ∧
    (∀ (u : MwV2.StoredUser) (ph : String),
      RoutesV2.toSafeUser { u with passwordHash := ph } =
        RoutesV2.toSafeUser u) ∧
    (∀ (u : RoutesV1.DbUser) (ph : String),
      RoutesV1.toSafeUser { u with passwordHash := ph } =
        RoutesV1.toSafeUser u) ∧
    (∀ (st : RoutesV2.AuthState) newId token now e un pw status u tk,
      (RoutesV2.signup st newId token now e un pw).1 = .ok status u tk →
      ∃ su, su ∈ (RoutesV2.signup st newId token now e un pw).2.users ∧
        u = RoutesV2.toSafeUser su) ∧
    (∀ (st : RoutesV2.AuthState) token e pw status u tk,
      (RoutesV2.login st token e pw).1 = .ok status u tk →
      ∃ su, su ∈ st.users ∧ u = RoutesV2.toSafeUser su) ∧
    (∀ (st : RoutesV2.AuthState) h u, RoutesV2.me st h = .ok u →
      ∃ su, su ∈ st.users ∧ u = RoutesV2.toSafeUser su) ∧
    (∀ (st : RoutesV1.DbState) newId sessId token now expiry e un pw
        status u tk,
      (RoutesV1.signup st newId sessId token now expiry e un pw).1 =
        .ok status u tk →
      ∃ su, su ∈
          (RoutesV1.signup st newId sessId token now expiry e un pw).2.users ∧
        u = RoutesV1.toSafeUser su) ∧
    (∀ (st : RoutesV1.DbState) sessId token now expiry e pw status u tk,
      (RoutesV1.login st sessId token now expiry e pw).1 = .ok status u tk →
      ∃ su, su ∈ st.users ∧ u = RoutesV1.toSafeUser su) ∧
    (∀ users sessions now h (ctx : DbMw.Ctx),
      (DbMw.requireAuth users sessions now h).1 = .proceeded (some ctx) →
      ∃ su, su ∈ users ∧ ctx.user = RoutesV1.toSafeUser su) := by
  refine ⟨fun u => ⟨rfl, rfl, rfl, rfl, rfl, rfl, rfl, rfl⟩,
    fun u ph => rfl,
    fun u => ⟨rfl, rfl, rfl, rfl, rfl, rfl, rfl, rfl⟩,
    fun u => ⟨rfl, rfl, rfl, rfl, rfl, rfl, rfl, rfl, rfl, rfl⟩,
    fun u ph => rfl, fun u ph => rfl,
    ?_, ?_, ?_, ?_, ?_, ?_⟩
  · intro st newId token now e un pw status u tk
    unfold RoutesV2.signup
    cases h1 : (st.users.find? (fun u2 => u2.email == e)).isSome with
    | true => simp [h1]
    | false =>
      cases h2 : (st.users.find? (fun u2 => u2.username == un)).isSome with
      | true => simp [h1, h2]
      | false =>
        simp only [h1, h2, Bool.false_eq_true, if_false]
        intro hok
        rw [RoutesV2.AuthResult.ok.injEq] at hok
        exact ⟨_, List.mem_append_right _ (List.mem_singleton.mpr rfl),
          hok.2.1.symm⟩
  · intro st token e pw status u tk
    unfold RoutesV2.login
    cases hF : st.users.find? (fun u2 => u2.email == e) with
    | none => simp [hF]
    | some su =>
      cases hV : verifyPassword pw su.passwordHash with
      | false => simp [hF, hV]
      | true =>
        simp only [hF, hV, if_true]
        intro hok
        rw [RoutesV2.AuthResult.ok.injEq] at hok
        exact ⟨su, List.mem_of_find?_eq_some hF, hok.2.1.symm⟩
  · intro st h u
    unfold RoutesV2.me
    rcases h with _ | hs
    · simp
    · cases hb : strStartsWith hs ("Bearer ") with
      | false => simp [hb]
      | true =>
        simp only [hb, if_true]
        cases hL : MwV2.lookupSession st.sessions (strDrop hs 7) with
        | none => simp [hL]
        | some uid =>
          cases hU : MwV2.findUserById st.users uid with
          | none => simp [hL, hU]
          | some su =>
            simp only [hL, hU]
            intro hok
            rw [RoutesV2.MeResult.ok.injEq] at hok
            exact ⟨su, List.mem_of_find?_eq_some hU, hok.symm⟩
  · intro st newId sessId token now expiry e un pw status u tk
    unfold RoutesV1.signup
    cases h1 : (RoutesV1.findByEmail st.users e).isSome with
    | true => simp [h1]
    | false =>
      cases h2 : (RoutesV1.findByUsername st.users un).isSome with
      | true => simp [h1, h2]
      | false =>
        simp only [h1, h2, Bool.false_eq_true, if_false]
        intro hok
        rw [RoutesV1.AuthResult.ok.injEq] at hok
        exact ⟨_, List.mem_append_right _ (List.mem_singleton.mpr rfl),
          hok.2.1.symm⟩
  · intro st sessId token now expiry e pw status u tk
    unfold RoutesV1.login
    cases hF : RoutesV1.findByEmail st.users e with
    | none => simp [hF]
    | some su =>
      cases hV : verifyPassword pw su.passwordHash with
      | false => simp [hF, hV]
      | true =>
        simp only [hF, hV, if_true]
        intro hok
        rw [RoutesV1.AuthResult.ok.injEq] at hok
        exact ⟨su, List.mem_of_find?_eq_some hF, hok.2.1.symm⟩
  · intro users sessions now h ctx
    unfold DbMw.requireAuth
    rcases hE : MwV1.extractToken h with _ | t
    · simp [hE]
    · cases hS : sessions.find? (fun s => s.token == t) with
      | none => simp [hE, hS]
      | some s =>
        by_cases hX : s.expiresAt < now
        · simp [hE, hS, if_pos hX]
        · cases hU : users.find? (fun v => v.id == s.userId) with
          | none => simp [hE, hS, if_neg hX, hU]
          | some su =>
            simp only [hE, hS, if_neg hX, hU]
            intro hok
            rw [MwOutcome.proceeded.injEq, Option.some.injEq] at hok
            exact ⟨su, List.mem_of_find?_eq_some hU, by rw [hok.symm]⟩

/-- C2, witness: a concrete signup over the empty store, with the
response user equal to the sanitized stored record. -/
theorem C2_witness :
    ∃ su, su ∈ (RoutesV2.signup ⟨[], []⟩ ("u1") ("t1") 0 ("a@x.com")
        ("alice") ("password123")).2.users ∧
      RoutesV2.toSafeUser su =
        { id := "u1", email := "a@x.com", username := "alice",
          avatarUrl := none, bio := none, emailVerified := false,
          createdAt := 0, updatedAt := 0 } := by
  obtain ⟨su, hmem, hu⟩ :=
    C2_password_hash_never_exposed.2.2.2.2.2.2.1 ⟨[], []⟩ ("u1") ("t1") 0
      ("a@x.com") ("alice") ("password123") 201
      { id := "u1", email := "a@x.com", username := "alice",
        avatarUrl := none, bio := none, emailVerified := false,
        createdAt := 0, updatedAt := 0 } ("t1") rfl
  exact ⟨su, hmem, hu.symm⟩

/-- One signup step preserves the email-uniqueness invariant of the
in-memory store: it inserts only after the duplicate check fails. -/
theorem signupV2_preserves_email_nodup
    (st : RoutesV2.AuthState) (newId token : String) (now : Nat)
    (e un pw : String)
    (hnd : noDupBy (fun u => u.email) st.users) :
    noDupBy (fun u => u.email)
      (RoutesV2.signup st newId token now e un pw).2.users := by
  unfold RoutesV2.signup
  cases h1 : (st.users.find? (fun u2 => u2.email == e)).isSome with
  | true => simpa [h1] using hnd
  | false =>
    cases h2 : (st.users.find? (fun u2 => u2.username == un)).isSome with
    | true => simpa [h1, h2] using hnd
    | false =>
      simp only [h1, h2, Bool.false_eq_true, if_false]
      have hnone : st.users.find? (fun u2 => u2.email == e) = none := by
        cases hf : st.users.find? (fun u2 => u2.email == e) with
        | none => rfl
        | some v => rw [hf] at h1; simp at h1
      have hnotin : ∀ x ∈ st.users, x.email ≠ e := by
        intro x hx
        have := List.find?_eq_none.mp hnone x hx
        simpa using this
      unfold noDupBy at hnd ⊢
      rw [List.map_append, List.nodup_append]
      refine ⟨hnd, List.nodup_singleton _, ?_⟩
      intro a ha hb
      simp only [List.map_cons, List.map_nil, List.mem_singleton] at hb
      obtain ⟨x, hx, hxa⟩ := List.mem_map.mp ha
      exact hnotin x hx (by rw [hxa, hb])

/-- One signup step preserves the email-uniqueness invariant of the
database store. -/
theorem signupV1_preserves_email_nodup
    (st : RoutesV1.DbState) (newId sessId token : String) (now expiry : Nat)
    (e un pw : String)
    (hnd : noDupBy (fun u => u.email) st.users) :
    noDupBy (fun u => u.email)
      (RoutesV1.signup st newId sessId token now expiry e un pw).2.users := by
  unfold RoutesV1.signup
  cases h1 : (RoutesV1.findByEmail st.users e).isSome with
  | true => simpa [h1] using hnd
  | false =>
    cases h2 : (RoutesV1.findByUsername st.users un).isSome with
    | true => simpa [h1, h2] using hnd
    | false =>
      simp only [h1, h2, Bool.false_eq_true, if_false]
      have hnone : RoutesV1.findByEmail st.users e = none := by
        cases hf : RoutesV1.findByEmail st.users e with
        | none => rfl
        | some v => rw [hf] at h1; simp at h1
      have hnotin : ∀ x ∈ st.users, x.email ≠ e := by
        intro x hx
        have := List.find?_eq_none.mp hnone x hx
        simpa using this
      unfold noDupBy at hnd ⊢
      rw [List.map_append, List.nodup_append]
      refine ⟨hnd, List.nodup_singleton _, ?_⟩
      intro a ha hb
      simp only [List.map_cons, List.map_nil, List.mem_singleton] at hb
      obtain ⟨x, hx, hxa⟩ := List.mem_map.mp ha
      exact hnotin x hx (by rw [hxa, hb])

/-- C3, counterexample: the claim asserts that of any two completed
signup attempts with the same email exactly one succeeds.  When a
record with that email already exists, both attempts fail, so neither
succeeds. -/
theorem C3_counterexample :
    ((RoutesV2.signup
        ⟨[{ id := "u0", email := "a@x.com", username := "alice",
            passwordHash := hashPassword ("pw0"), avatarUrl := none,
            bio := none, emailVerified := false, createdAt := 0,
            updatedAt := 0 }], []⟩
        ("u1") ("t1") 1 ("a@x.com") ("bob") ("pw1")).1.isOk = false) ∧
    ((RoutesV2.signup
        (RoutesV2.signup
          ⟨[{ id := "u0", email := "a@x.com", username := "alice",
              passwordHash := hashPassword ("pw0"), avatarUrl := none,
              bio := none, emailVerified := false, createdAt := 0,
              updatedAt := 0 }], []⟩
          ("u1") ("t1") 1 ("a@x.com") ("bob") ("pw1")).2
        ("u2") ("t2") 2 ("a@x.com") ("carol") ("pw2")).1.isOk = false) :=
  ⟨rfl, rfl⟩

/-- C3, amended: of two completed signup attempts with the same email,
at most one succeeds; if the first succeeds the second fails with the
already-exists error; and the store never comes to hold two records
with the same email (the uniqueness invariant is preserved).  Stated
for both route revisions. -/
theorem C3_amended :
    (∀ (st : RoutesV2.AuthState) id1 t1 n1 un1 pw1 id2 t2 n2 un2 pw2
        (e : String),
      (¬ ((RoutesV2.signup st id1 t1 n1 e un1 pw1).1.isOk = true ∧
          (RoutesV2.signup (RoutesV2.signup st id1 t1 n1 e un1 pw1).2
            id2 t2 n2 e un2 pw2).1.isOk = true)) ∧
      ((RoutesV2.signup st id1 t1 n1 e un1 pw1).1.isOk = true →
        (RoutesV2.signup (RoutesV2.signup st id1 t1 n1 e un1 pw1).2
          id2 t2 n2 e un2 pw2).1 = .err 400 ("Email already registered")) ∧
      (noDupBy (fun u => u.email) st.users →
        noDupBy (fun u => u.email)
          (RoutesV2.signup (RoutesV2.signup st id1 t1 n1 e un1 pw1).2
            id2 t2 n2 e un2 pw2).2.users)) ∧
    (∀ (st : RoutesV1.DbState) id1 s1 t1 n1 x1 un1 pw1 id2 s2 t2 n2 x2
        un2 pw2 (e : String),
      (¬ ((RoutesV1.signup st id1 s1 t1 n1 x1 e un1 pw1).1.isOk = true ∧
          (RoutesV1.signup (RoutesV1.signup st id1 s1 t1 n1 x1 e un1 pw1).2
            id2 s2 t2 n2 x2 e un2 pw2).1.isOk = true)) ∧
      ((RoutesV1.signup st id1 s1 t1 n1 x1 e un1 pw1).1.isOk = true →
        (RoutesV1.signup (RoutesV1.signup st id1 s1 t1 n1 x1 e un1 pw1).2
          id2 s2 t2 n2 x2 e un2 pw2).1 =
          .err 409 ("An account with this email already exists")) ∧
      (noDupBy (fun u => u.email) st.users →
        noDupBy (fun u => u.email)
          (RoutesV1.signup (RoutesV1.signup st id1 s1 t1 n1 x1 e un1 pw1).2
            id2 s2 t2 n2 x2 e un2 pw2).2.users)) := by
  constructor
  · intro st id1 t1 n1 un1 pw1 id2 t2 n2 un2 pw2 e
    have hsecond :
        (RoutesV2.signup st id1 t1 n1 e un1 pw1).1.isOk = true →
        (RoutesV2.signup (RoutesV2.signup st id1 t1 n1 e un1 pw1).2
          id2 t2 n2 e un2 pw2).1 = .err 400 ("Email already registered") := by
      intro hok
      unfold RoutesV2.signup at hok ⊢
      cases h1 : (st.users.find? (fun u2 => u2.email == e)).isSome with
      | true => rw [h1] at hok; simp [RoutesV2.AuthResult.isOk] at hok
      | false =>
        cases h2 : (st.users.find? (fun u2 => u2.username == un1)).isSome with
        | true => rw [h1, h2] at hok; simp [RoutesV2.AuthResult.isOk] at hok
        | false =>
          have hnone : st.users.find? (fun u2 => u2.email == e) = none := by
            cases hf : st.users.find? (fun u2 => u2.email == e) with
            | none => rfl
            | some v => rw [hf] at h1; simp at h1
          simp [h1, h2, List.find?_append, hnone]
    refine ⟨?_, hsecond, ?_⟩
    · rintro ⟨hok1, hok2⟩
      rw [hsecond hok1] at hok2
      simp [RoutesV2.AuthResult.isOk] at hok2
    · intro hnd
      exact signupV2_preserves_email_nodup _ _ _ _ _ _ _
        (signupV2_preserves_email_nodup _ _ _ _ _ _ _ hnd)
  · intro st id1 s1 t1 n1 x1 un1 pw1 id2 s2 t2 n2 x2 un2 pw2 e
    have hsecond :
        (RoutesV1.signup st id1 s1 t1 n1 x1 e un1 pw1).1.isOk = true →
        (RoutesV1.signup (RoutesV1.signup st id1 s1 t1 n1 x1 e un1 pw1).2
          id2 s2 t2 n2 x2 e un2 pw2).1 =
          .err 409 ("An account with this email already exists") := by
      intro hok
      unfold RoutesV1.signup at hok ⊢
      cases h1 : (RoutesV1.findByEmail st.users e).isSome with
      | true => rw [h1] at hok; simp [RoutesV1.AuthResult.isOk] at hok
      | false =>
        cases h2 : (RoutesV1.findByUsername st.users un1).isSome with
        | true => rw [h1, h2] at hok; simp [RoutesV1.AuthResult.isOk] at hok
        | false =>
          have hnone : RoutesV1.findByEmail st.users e = none := by
            cases hf : RoutesV1.findByEmail st.users e with
            | none => rfl
            | some v => rw [hf] at h1; simp at h1
          unfold RoutesV1.findByEmail at hnone ⊢
          simp [h1, h2, RoutesV1.findByEmail, List.find?_append, hnone]
    refine ⟨?_, hsecond, ?_⟩
    · rintro ⟨hok1, hok2⟩
      rw [hsecond hok1] at hok2
      simp [RoutesV1.AuthResult.isOk] at hok2
    · intro hnd
      exact signupV1_preserves_email_nodup _ _ _ _ _ _ _ _ _
        (signupV1_preserves_email_nodup _ _ _ _ _ _ _ _ _ hnd)

/-- C3, witness: over the empty store, the first of two same-email
signups succeeds, so by the amended claim the second fails with the
already-exists error and the uniqueness invariant holds afterwards. -/
theorem C3_witness :
    (RoutesV2.signup
      (RoutesV2.signup ⟨[], []⟩ ("u1") ("t1") 1 ("a@x.com") ("alice")
        ("pw1")).2
      ("u2") ("t2") 2 ("a@x.com") ("bob") ("pw2")).1 =
      .err 400 ("Email already registered") ∧
    noDupBy (fun u => u.email)
      (RoutesV2.signup
        (RoutesV2.signup ⟨[], []⟩ ("u1") ("t1") 1 ("a@x.com") ("alice")
          ("pw1")).2
        ("u2") ("t2") 2 ("a@x.com") ("bob") ("pw2")).2.users := by
  have h := (C3_amended.1 ⟨[], []⟩ ("u1") ("t1") 1 ("alice") ("pw1")
    ("u2") ("t2") 2 ("bob") ("pw2") ("a@x.com"))
  exact ⟨h.2.1 rfl, h.2.2 (by simp [noDupBy])⟩

/-- C8: the login response for an unknown email and the login response
for a known email with a wrong password are identical - both 401 with
the same generic message - so an observer cannot distinguish the two
cases.  Stated for both route revisions. -/
theorem C8_login_indistinguishable :
    (∀ (st1 : RoutesV2.AuthState) tok1 e1 p1
        (st2 : RoutesV2.AuthState) tok2 e2 p2 u,
      st1.users.find? (fun v => v.email == e1) = none →
      st2.users.find? (fun v => v.email == e2) = some u →
      verifyPassword p2 u.passwordHash = false →
      (RoutesV2.login st1 tok1 e1 p1).1 =
        .err 401 ("Invalid email or password") ∧
      (RoutesV2.login st2 tok2 e2 p2).1 =
        .err 401 ("Invalid email or password") ∧
      (RoutesV2.login st1 tok1 e1 p1).1 = (RoutesV2.login st2 tok2 e2 p2).1) ∧
    (∀ (st1 : RoutesV1.DbState) sid1 tok1 n1 x1 e1 p1
        (st2 : RoutesV1.DbState) sid2 tok2 n2 x2 e2 p2 u,
      RoutesV1.findByEmail st1.users e1 = none →
      RoutesV1.findByEmail st2.users e2 = some u →
      verifyPassword p2 u.passwordHash = false →
      (RoutesV1.login st1 sid1 tok1 n1 x1 e1 p1).1 =
        .err 401 ("Invalid email or password") ∧
      (RoutesV1.login st2 sid2 tok2 n2 x2 e2 p2).1 =
        .err 401 ("Invalid email or password") ∧
      (RoutesV1.login st1 sid1 tok1 n1 x1 e1 p1).1 =
        (RoutesV1.login st2 sid2 tok2 n2 x2 e2 p2).1) := by
  constructor
  · intro st1 tok1 e1 p1 st2 tok2 e2 p2 u h1 h2 hv
    have ha : (RoutesV2.login st1 tok1 e1 p1).1 =
        .err 401 ("Invalid email or password") := by
      unfold RoutesV2.login
      rw [h1]
    have hb : (RoutesV2.login st2 tok2 e2 p2).1 =
        .err 401 ("Invalid email or password") := by
      unfold RoutesV2.login
      rw [h2]
      simp [hv]
    exact ⟨ha, hb, by rw [ha, hb]⟩
  · intro st1 sid1 tok1 n1 x1 e1 p1 st2 sid2 tok2 n2 x2 e2 p2 u h1 h2 hv
    have ha : (RoutesV1.login st1 sid1 tok1 n1 x1 e1 p1).1 =
        .err 401 ("Invalid email or password") := by
      unfold RoutesV1.login
      rw [h1]
    have hb : (RoutesV1.login st2 sid2 tok2 n2 x2 e2 p2).1 =
        .err 401 ("Invalid email or password") := by
      unfold RoutesV1.login
      rw [h2]
      simp [hv]
    exact ⟨ha, hb, by rw [ha, hb]⟩

/-- C8, witness: an unknown email against the empty store and a wrong
password against a store holding one account produce the same
response. -/
theorem C8_witness :
    (RoutesV2.login ⟨[], []⟩ ("t1") ("ghost@x.com") ("whatever")).1 =
      .err 401 ("Invalid email or password") ∧
    (RoutesV2.login
        ⟨[{ id := "u0", email := "a@x.com", username := "alice",
            passwordHash := hashPassword ("right"), avatarUrl := none,
            bio := none, emailVerified := false, createdAt := 0,
            updatedAt := 0 }], []⟩
        ("t2") ("a@x.com") ("wrong")).1 =
      .err 401 ("Invalid email or password") := by
  have h := C8_login_indistinguishable.1 ⟨[], []⟩ ("t1") ("ghost@x.com")
    ("whatever")
    ⟨[{ id := "u0", email := "a@x.com", username := "alice",
        passwordHash := hashPassword ("right"), avatarUrl := none,
        bio := none, emailVerified := false, createdAt := 0,
        updatedAt := 0 }], []⟩
    ("t2") ("a@x.com") ("wrong")
    { id := "u0", email := "a@x.com", username := "alice",
      passwordHash := hashPassword ("right"), avatarUrl := none,
      bio := none, emailVerified := false, createdAt := 0, updatedAt := 0 }
    rfl rfl rfl
  exact ⟨h.1, h.2.1⟩

/-- C5: for every opaque session token whose session has expired, the
next validated request with that token is answered 401 and the session
row is deleted, so no session with that token remains; a non-expired
session instead resolves to its associated credential record.  Settled
against the spec-modelled database-session middleware. -/
theorem C5_expired_session_cleanup :
    ∀ (users : List RoutesV1.DbUser) (sessions : List RoutesV1.DbSession)
      (now : Nat) (h : Option String) (t : String) (s : RoutesV1.DbSession),
      MwV1.extractToken h = some t →
      sessions.find? (fun r => r.token == t) = some s →
      ((s.expiresAt < now →
        (DbMw.requireAuth users sessions now h).1 =
          .halted 401 ("Invalid or expired token") ∧
        (DbMw.requireAuth users sessions now h).2 =
          sessions.filter (fun r => ! (r.token == t)) ∧
        ∀ r ∈ (DbMw.requireAuth users sessions now h).2, r.token ≠ t) ∧
      (¬ s.expiresAt < now →
        ∀ u, users.find? (fun v => v.id == s.userId) = some u →
        DbMw.requireAuth users sessions now h =
          (.proceeded (some { userId := u.id, user := RoutesV1.toSafeUser u }),
            sessions))) := by
  intro users sessions now h t s hE hS
  constructor
  · intro hexp
    have heq : DbMw.requireAuth users sessions now h =
        (.halted 401 ("Invalid or expired token"),
          sessions.filter (fun r => ! (r.token == t))) := by
      unfold DbMw.requireAuth
      simp only [hE, hS]
      rw [if_pos hexp]
    refine ⟨by rw [heq], by rw [heq], ?_⟩
    intro r hr
    rw [heq] at hr
    have := (List.mem_filter.mp hr).2
    simpa using this
  · intro hexp u hU
    unfold DbMw.requireAuth
    simp only [hE, hS, hU]
    rw [if_neg hexp]

/-- C5, witness: one expired session is deleted on access and answered
401; the same session before expiry resolves to its credential
record. -/
theorem C5_witness :
    (DbMw.requireAuth
      [{ id := "u1", email := "a@x.com", username := "alice",
         passwordHash := hashPassword ("pw"), avatarUrl := none,
         bio := none, debateStats := some RoutesV1.defaultDebateStats,
         preferences := some RoutesV1.defaultPreferences,
         emailVerified := some false, createdAt := 0, updatedAt := 0 }]
      [{ id := "s1", userId := "u1", token := "tok1", expiresAt := 5,
         createdAt := 0 }] 10
      (some ("Bearer tok1"))).1 =
        .halted 401 ("Invalid or expired token") ∧
    (DbMw.requireAuth
      [{ id := "u1", email := "a@x.com", username := "alice",
         passwordHash := hashPassword ("pw"), avatarUrl := none,
         bio := none, debateStats := some RoutesV1.defaultDebateStats,
         preferences := some RoutesV1.defaultPreferences,
         emailVerified := some false, createdAt := 0, updatedAt := 0 }]
      [{ id := "s1", userId := "u1", token := "tok1", expiresAt := 5,
         createdAt := 0 }] 10
      (some ("Bearer tok1"))).2 = [] ∧
    DbMw.requireAuth
      [{ id := "u1", email := "a@x.com", username := "alice",
         passwordHash := hashPassword ("pw"), avatarUrl := none,
         bio := none, debateStats := some RoutesV1.defaultDebateStats,
         preferences := some RoutesV1.defaultPreferences,
         emailVerified := some false, createdAt := 0, updatedAt := 0 }]
      [{ id := "s1", userId := "u1", token := "tok1", expiresAt := 5,
         createdAt := 0 }] 3
      (some ("Bearer tok1")) =
      (.proceeded (some
        { userId := "u1",
          user := { id := "u1", email := "a@x.com", username := "alice",
                    avatarUrl := none, bio := none,
                    debateStats := some RoutesV1.defaultDebateStats,
                    preferences := some RoutesV1.defaultPreferences,
                    emailVerified := some false,
                    createdAt := 0, updatedAt := 0 } }),
        [{ id := "s1", userId := "u1", token := "tok1", expiresAt := 5,
           createdAt := 0 }]) := by
  have h10 := C5_expired_session_cleanup
    [{ id := "u1", email := "a@x.com", username := "alice",
       passwordHash := hashPassword ("pw"), avatarUrl := none,
       bio := none, debateStats := some RoutesV1.defaultDebateStats,
       preferences := some RoutesV1.defaultPreferences,
       emailVerified := some false, createdAt := 0, updatedAt := 0 }]
    [{ id := "s1", userId := "u1", token := "tok1", expiresAt := 5,
         createdAt := 0 }] 10
    (some ("Bearer tok1")) ("tok1")
    { id := "s1", userId := "u1", token := "tok1", expiresAt := 5,
      createdAt := 0 }
    rfl rfl
  have h3 := C5_expired_session_cleanup
    [{ id := "u1", email := "a@x.com", username := "alice",
       passwordHash := hashPassword ("pw"), avatarUrl := none,
       bio := none, debateStats := some RoutesV1.defaultDebateStats,
       preferences := some RoutesV1.defaultPreferences,
       emailVerified := some false, createdAt := 0, updatedAt := 0 }]
    [{ id := "s1", userId := "u1", token := "tok1", expiresAt := 5,
         createdAt := 0 }] 3
    (some ("Bearer tok1")) ("tok1")
    { id := "s1", userId := "u1", token := "tok1", expiresAt := 5,
      createdAt := 0 }
    rfl rfl
  refine ⟨(h10.1 (by decide)).1, ?_, ?_⟩
  · rw [(h10.1 (by decide)).2.1]
    rfl
  · exact h3.2 (by decide)
      { id := "u1", email := "a@x.com", username := "alice",
        passwordHash := hashPassword ("pw"), avatarUrl := none,
        bio := none, debateStats := some RoutesV1.defaultDebateStats,
        preferences := some RoutesV1.defaultPreferences,
        emailVerified := some false, createdAt := 0, updatedAt := 0 }
      rfl

/-- C4, witness: concrete instances of the amended statement - a
wrong-scheme header in both revisions, and the empty-remainder header
of the counterexample in revision 2. -/
theorem C4_witness :
    MwV1.requireAuth [] (some ("Basic xyz")) =
      .halted 401 ("Authentication required. Please provide a valid token.") ∧
    MwV2.requireAuth [] [] (some ("Basic xyz")) =
      .halted 401 ("Unauthorized - No token provided") ∧
    MwV2.requireAuth [] [] (some ("Bearer ")) =
      .halted 401 ("Unauthorized - Invalid or expired token") := by
  refine ⟨?_, ?_, ?_⟩
  · exact C4_extraction_amended.2.2.1 [] (some ("Basic xyz"))
      (C4_extraction_amended.1 ("Basic xyz") (Or.inl rfl))
  · exact C4_extraction_amended.2.2.2.2.1 [] [] ("Basic xyz") rfl
  · exact C4_extraction_amended.2.2.2.2.2 [] [] ("Bearer ") rfl rfl

section CodecLemmas

open ByteCodec Jwt

/-- The url alphabet inverts the encoding table on 6-bit values. -/
theorem b64ValOf_urlChar : ∀ v, v < 64 → b64ValOf (b64UrlChar v) = some v := by
  decide

/-- The url alphabet never produces the dot byte, whatever the
input. -/
theorem b64UrlChar_ne_dot (v : Nat) : b64UrlChar v ≠ 46 := by
  unfold b64UrlChar
  split_ifs <;> omega

/-- The url alphabet stays within byte range on 6-bit values. -/
theorem b64UrlChar_lt (v : Nat) (h : v < 64) : b64UrlChar v < 256 := by
  unfold b64UrlChar
  split_ifs <;> omega

/-- Every byte of an encoded segment comes from the alphabet, so no
encoded segment contains a dot. -/
theorem b64urlEncode_ne_dot : ∀ bs : Bytes, ∀ c ∈ b64urlEncode bs, c ≠ 46
  | [], c, hc => by simp [b64urlEncode] at hc
  | [a], c, hc => by
    simp only [b64urlEncode, List.mem_cons, List.not_mem_nil, or_false] at hc
    rcases hc with h | h <;> exact h ▸ b64UrlChar_ne_dot _
  | [a, b], c, hc => by
    simp only [b64urlEncode, List.mem_cons, List.not_mem_nil, or_false] at hc
    rcases hc with h | h | h <;> exact h ▸ b64UrlChar_ne_dot _
  | a :: b :: c2 :: rest, c, hc => by
    simp only [b64urlEncode, List.mem_cons] at hc
    rcases hc with h | h | h | h | h
    · exact h ▸ b64UrlChar_ne_dot _
    · exact h ▸ b64UrlChar_ne_dot _
    · exact h ▸ b64UrlChar_ne_dot _
    · exact h ▸ b64UrlChar_ne_dot _
    · exact b64urlEncode_ne_dot rest c h

/-- Encoded segments are in byte range when the input is. -/
theorem b64urlEncode_byteOK : ∀ bs : Bytes, ByteOK bs →
    ByteOK (b64urlEncode bs)
  | [], _, c, hc => by simp [b64urlEncode] at hc
  | [a], h, c, hc => by
    have ha : a < 256 := h a (by simp)
    simp only [b64urlEncode, List.mem_cons, List.not_mem_nil, or_false] at hc
    rcases hc with hr | hr <;> exact hr ▸ b64UrlChar_lt _ (by omega)
  | [a, b], h, c, hc => by
    have ha : a < 256 := h a (by simp)
    have hb : b < 256 := h b (by simp)
    simp only [b64urlEncode, List.mem_cons, List.not_mem_nil, or_false] at hc
    rcases hc with hr | hr | hr <;> exact hr ▸ b64UrlChar_lt _ (by omega)
  | a :: b :: c2 :: rest, h, c, hc => by
    have ha : a < 256 := h a (by simp)
    have hb : b < 256 := h b (by simp)
    have hc2 : c2 < 256 := h c2 (by simp)
    simp only [b64urlEncode, List.mem_cons] at hc
    rcases hc with hr | hr | hr | hr | hr
    · exact hr ▸ b64UrlChar_lt _ (by omega)
    · exact hr ▸ b64UrlChar_lt _ (by omega)
    · exact hr ▸ b64UrlChar_lt _ (by omega)
    · exact hr ▸ b64UrlChar_lt _ (by omega)
    · exact b64urlEncode_byteOK rest
        (fun x hx => h x (by simp [hx])) c hr

/-- Decoding inverts encoding on byte sequences. -/
theorem b64_roundtrip : ∀ bs : Bytes, ByteOK bs →
    b64Decode (b64urlEncode bs) = bs
  | [], _ => rfl
  | [a], h => by
    have ha : a < 256 := h a (by simp)
    unfold b64urlEncode b64Decode
    rw [List.filterMap_cons_some (b64ValOf_urlChar _ (by omega)),
      List.filterMap_cons_some (b64ValOf_urlChar _ (by omega))]
    simp only [List.filterMap_nil]
    unfold b64Combine
    congr 1
    omega
  | [a, b], h => by
    have ha : a < 256 := h a (by simp)
    have hb : b < 256 := h b (by simp)
    unfold b64urlEncode b64Decode
    rw [List.filterMap_cons_some (b64ValOf_urlChar _ (by omega)),
      List.filterMap_cons_some (b64ValOf_urlChar _ (by omega)),
      List.filterMap_cons_some (b64ValOf_urlChar _ (by omega))]
    simp only [List.filterMap_nil]
    unfold b64Combine
    congr 1
    · omega
    · congr 1
      omega
  | a :: b :: c :: rest, h => by
    have ha : a < 256 := h a (by simp)
    have hb : b < 256 := h b (by simp)
    have hc : c < 256 := h c (by simp)
    have ih := b64_roundtrip rest (fun x hx => h x (by simp [hx]))
    unfold b64urlEncode b64Decode
    rw [List.filterMap_cons_some (b64ValOf_urlChar _ (by omega)),
      List.filterMap_cons_some (b64ValOf_urlChar _ (by omega)),
      List.filterMap_cons_some (b64ValOf_urlChar _ (by omega)),
      List.filterMap_cons_some (b64ValOf_urlChar _ (by omega))]
    unfold b64Combine
    unfold b64Decode at ih
    rw [ih]
    congr 1
    · omega
    · congr 1
      · omega
      · congr 1
        omega

/-- splitOnByte never yields the empty list of parts. -/
theorem splitOnByte_ne_nil : ∀ (d : Nat) (s : Bytes), splitOnByte d s ≠ []
  | d, [] => by simp [splitOnByte]
  | d, c :: r => by
    unfold splitOnByte
    rcases hsp : splitOnByte d r with _ | ⟨p, ps⟩
    · simp
    · split_ifs <;> simp

/-- A dot-free segment splits into the single part holding it. -/
theorem splitOnByte_noSep : ∀ (d : Nat) (a : Bytes), (∀ c ∈ a, c ≠ d) →
    splitOnByte d a = [a]
  | d, [], _ => rfl
  | d, c :: a2, h => by
    have ih := splitOnByte_noSep d a2 (fun x hx => h x (by simp [hx]))
    unfold splitOnByte
    rw [ih]
    simp [h c (by simp)]

/-- Splitting after a dot-free prefix and a separator peels one
part. -/
theorem splitOnByte_pre : ∀ (d : Nat) (a r : Bytes), (∀ c ∈ a, c ≠ d) →
    splitOnByte d (a ++ d :: r) = a :: splitOnByte d r
  | d, [], r, _ => by
    have step : splitOnByte d ([] ++ d :: r) =
        (match splitOnByte d r with
         | [] => [[d]]
         | p :: ps => if d = d then [] :: p :: ps else (d :: p) :: ps) := rfl
    rw [step]
    rcases hsp : splitOnByte d r with _ | ⟨p, ps⟩
    · exact absurd hsp (splitOnByte_ne_nil d r)
    · simp
  | d, c :: a2, r, h => by
    have ih := splitOnByte_pre d a2 r (fun x hx => h x (by simp [hx]))
    have step : splitOnByte d ((c :: a2) ++ d :: r) =
        (match splitOnByte d (a2 ++ d :: r) with
         | [] => [[c]]
         | p :: ps => if c = d then [] :: p :: ps else (c :: p) :: ps) := rfl
    rw [step, ih]
    simp [h c (by simp)]

/-- A three-segment dot-joined sequence splits into its segments. -/
theorem splitOnByte_three (d : Nat) (a b c : Bytes)
    (ha : ∀ x ∈ a, x ≠ d) (hb : ∀ x ∈ b, x ≠ d) (hc : ∀ x ∈ c, x ≠ d) :
    splitOnByte d (a ++ d :: (b ++ d :: c)) = [a, b, c] := by
  rw [splitOnByte_pre d a _ ha, splitOnByte_pre d b _ hb,
    splitOnByte_noSep d c hc]

/-- Hex parsing inverts hex rendering on nibbles. -/
theorem hexVal_hexChar : ∀ v, v < 16 → hexVal (hexChar v) = some v := by
  decide

/-- Parsing a rendered string body up to its closing quote recovers
the original bytes. -/
theorem parseStrBody_escBytes : ∀ (s rest : Bytes),
    parseStrBody (escBytes s ++ 34 :: rest) = some (s, rest)
  | [], rest => by
    simp only [escBytes, List.nil_append]
    conv_lhs => unfold parseStrBody
    simp
  | b :: s2, rest => by
    have ih := parseStrBody_escBytes s2 rest
    show parseStrBody ((escByte b ++ escBytes s2) ++ 34 :: rest) = _
    rw [List.append_assoc]
    unfold escByte
    split_ifs with h1 h2 h3 h4 h5 h6 h7 h8
    · subst h1
      simp only [List.cons_append, List.nil_append]
      conv_lhs => unfold parseStrBody
      simp [ih]
    · subst h2
      simp only [List.cons_append, List.nil_append]
      conv_lhs => unfold parseStrBody
      simp [ih]
    · subst h3
      simp only [List.cons_append, List.nil_append]
      conv_lhs => unfold parseStrBody
      simp [ih]
    · subst h4
      simp only [List.cons_append, List.nil_append]
      conv_lhs => unfold parseStrBody
      simp [ih]
    · subst h5
      simp only [List.cons_append, List.nil_append]
      conv_lhs => unfold parseStrBody
      simp [ih]
    · subst h6
      simp only [List.cons_append, List.nil_append]
      conv_lhs => unfold parseStrBody
      simp [ih]
    · subst h7
      simp only [List.cons_append, List.nil_append]
      conv_lhs => unfold parseStrBody
      simp [ih]
    · have e3 : hexVal (hexChar (b / 16)) = some (b / 16) :=
        hexVal_hexChar _ (by omega)
      have e4 : hexVal (hexChar (b % 16)) = some (b % 16) :=
        hexVal_hexChar _ (by omega)
      have ecp : b / 16 * 16 + b % 16 = b := by omega
      have e0 : hexVal 48 = some 0 := rfl
      simp only [List.cons_append, List.nil_append]
      conv_lhs => unfold parseStrBody
      simp [e0, e3, e4, ih, ecp, utf8OfCp, show b < 128 by omega]
    · simp only [List.cons_append, List.nil_append]
      conv_lhs => unfold parseStrBody
      simp [h1, h2, show ¬ b < 32 by omega, ih]

/-- The fuelled digit renderer yields a nonempty digit string when the
fuel bounds the number. -/
theorem natLitAux_spec : ∀ (f n : Nat), n < f →
    natLitAux f n ≠ [] ∧ ∀ c ∈ natLitAux f n, 48 ≤ c ∧ c ≤ 57
  | 0, n, h => absurd h (by omega)
  | f + 1, n, h => by
    unfold natLitAux
    by_cases h10 : n < 10
    · simp only [h10, if_true]
      refine ⟨by simp, ?_⟩
      intro c hc
      simp only [List.mem_singleton] at hc
      omega
    · have hrec := natLitAux_spec f (n / 10) (by omega)
      simp only [h10, if_false]
      refine ⟨by simp [hrec.1], ?_⟩
      intro c hc
      rw [List.mem_append] at hc
      rcases hc with hc | hc
      · exact hrec.2 c hc
      · simp only [List.mem_singleton] at hc
        omega

/-- Folding the digit-value step over rendered digits computes the
rendered number. -/
theorem natLitAux_foldl : ∀ (f n acc : Nat), n < f →
    (natLitAux f n).foldl (fun a c => a * 10 + (c - 48)) acc =
      acc * 10 ^ (natLitAux f n).length + n
  | 0, n, acc, h => absurd h (by omega)
  | f + 1, n, acc, h => by
    unfold natLitAux
    by_cases h10 : n < 10
    · simp only [h10, if_true, List.foldl_cons, List.foldl_nil,
        List.length_singleton, pow_one]
      omega
    · have ih := natLitAux_foldl f (n / 10) acc (by omega)
      simp only [h10, if_false, List.foldl_append, List.foldl_cons,
        List.foldl_nil, ih, List.length_append, List.length_singleton]
      have hsub : acc * 10 ^ (natLitAux f (n / 10)).length * 10 + n =
          acc * 10 ^ ((natLitAux f (n / 10)).length + 1) + n := by
        rw [pow_succ]
        ring
      calc (acc * 10 ^ (natLitAux f (n / 10)).length + n / 10) * 10 +
            (48 + n % 10 - 48)
          = acc * 10 ^ (natLitAux f (n / 10)).length * 10 +
            (n / 10 * 10 + n % 10) := by
            have : 48 + n % 10 - 48 = n % 10 := by omega
            rw [this]
            ring
        _ = acc * 10 ^ (natLitAux f (n / 10)).length * 10 + n := by
            have hdm : n / 10 * 10 + n % 10 = n := by omega
            rw [hdm]
        _ = acc * 10 ^ ((natLitAux f (n / 10)).length + 1) + n := hsub

/-- Digit consumption stops exactly at the first non-digit. -/
theorem parseDigits_append : ∀ (ds rest : Bytes) (acc : Nat),
    (∀ c ∈ ds, 48 ≤ c ∧ c ≤ 57) →
    (∀ c, rest.head? = some c → ¬(48 ≤ c ∧ c ≤ 57)) →
    parseDigits (ds ++ rest) acc =
      (ds.foldl (fun a c => a * 10 + (c - 48)) acc, rest)
  | [], rest, acc, _, hrest => by
    cases rest with
    | nil => simp [parseDigits]
    | cons c r =>
      have hnd := hrest c rfl
      have hb : isDigitB c = false := by
        simp only [isDigitB, decide_eq_false_iff_not]
        exact hnd
      simp [parseDigits, hb]
  | d :: ds2, rest, acc, hds, hrest => by
    have hd := hds d (by simp)
    have hb : isDigitB d = true := by
      simp only [isDigitB]
      simp only [decide_eq_true_eq]
      omega
    have ih := parseDigits_append ds2 rest (acc * 10 + (d - 48))
      (fun c hc => hds c (by simp [hc])) hrest
    simp [parseDigits, hb, ih]

/-- The leading digit of a positive rendered number is nonzero. -/
theorem natLitAux_head : ∀ (f n : Nat), n < f → 1 ≤ n →
    ∃ c ds, natLitAux f n = c :: ds ∧ 49 ≤ c ∧ c ≤ 57
  | f + 1, n, _, hn => by
    unfold natLitAux
    split_ifs with h
    · exact ⟨48 + n, [], rfl, by omega, by omega⟩
    · obtain ⟨c, ds, hcd, h1, h2⟩ :=
        natLitAux_head f (n / 10) (by omega) (by omega)
      exact ⟨c, ds ++ [48 + n % 10], by rw [hcd]; rfl, h1, h2⟩

/-- A number with no fraction and no exponent assembles to a plain
integer. -/
theorem mkNum_int (neg : Bool) (n : Nat) :
    mkNum neg n 0 0 0 = .num (applySign neg n) := by
  unfold mkNum
  simp

/-- Without an exponent marker next, the exponent part is empty. -/
theorem parseNumExp_plain (neg : Bool) (ip fv fl : Nat) (rest : Bytes)
    (hrest : ∀ c, rest.head? = some c → c ≠ 101 ∧ c ≠ 69) :
    parseNumExp neg ip fv fl rest = some (mkNum neg ip fv fl 0, rest) := by
  cases rest with
  | nil => rfl
  | cons c r =>
    obtain ⟨h101, h69⟩ := hrest c rfl
    simp only [parseNumExp]
    rw [if_neg (fun h => h.elim h101 h69)]

/-- Without a fraction or exponent marker next, both tail parts are
empty. -/
theorem parseNumRest_plain (neg : Bool) (ip : Nat) (rest : Bytes)
    (hrest : ∀ c, rest.head? = some c → c ≠ 46 ∧ c ≠ 101 ∧ c ≠ 69) :
    parseNumRest neg ip rest = some (mkNum neg ip 0 0 0, rest) := by
  cases rest with
  | nil => rfl
  | cons c r =>
    obtain ⟨h46, h101, h69⟩ := hrest c rfl
    simp only [parseNumRest]
    rw [if_neg h46]
    exact parseNumExp_plain neg ip 0 0 (c :: r) (fun x hx => by
      rw [List.head?_cons, Option.some.injEq] at hx
      subst hx
      exact ⟨h101, h69⟩)

/-- Parsing a rendered number literal recovers the integer and stops
at the first byte that extends neither the digit run nor a fraction or
exponent part. -/
theorem parseNumber_natLit (n : Nat) (rest : Bytes)
    (hrest : ∀ c, rest.head? = some c →
      ¬(48 ≤ c ∧ c ≤ 57) ∧ c ≠ 46 ∧ c ≠ 101 ∧ c ≠ 69) :
    parseNumber false (natLit n ++ rest) = some (.num (n : Int), rest) := by
  have hrestT : ∀ c, rest.head? = some c → c ≠ 46 ∧ c ≠ 101 ∧ c ≠ 69 :=
    fun c hc => (hrest c hc).2
  have hrestD : ∀ c, rest.head? = some c → ¬(48 ≤ c ∧ c ≤ 57) :=
    fun c hc => (hrest c hc).1
  rcases Nat.eq_zero_or_pos n with hz | hp
  · subst hz
    have h0 : natLit 0 ++ rest = 48 :: rest := rfl
    rw [h0]
    show parseNumRest false 0 rest = some (.num ((0 : Nat) : Int), rest)
    rw [parseNumRest_plain false 0 rest hrestT, mkNum_int]
    rfl
  · obtain ⟨c, ds, hcd, hc1, hc2⟩ := natLitAux_head (n + 1) n (by omega) hp
    have hfold := natLitAux_foldl (n + 1) n 0 (by omega)
    have hdig := (natLitAux_spec (n + 1) n (by omega)).2
    rw [hcd] at hfold hdig
    have hds : ∀ x ∈ ds, 48 ≤ x ∧ x ≤ 57 := fun x hx => hdig x (by simp [hx])
    have hstep := parseDigits_append ds rest (c - 48) hds hrestD
    have hlit2 : natLit n = c :: ds := by unfold natLit; exact hcd
    rw [hlit2, List.cons_append]
    have hb : isDigitB c = true := by
      simp only [isDigitB, decide_eq_true_eq]
      omega
    show (if c = 48 then parseNumRest false 0 (ds ++ rest)
      else if isDigitB c then
        parseNumRest false (parseDigits (ds ++ rest) (c - 48)).1
          (parseDigits (ds ++ rest) (c - 48)).2
      else none) = some (.num (n : Int), rest)
    rw [if_neg (show ¬ c = 48 by omega), if_pos hb, hstep]
    simp only [List.foldl_cons, Nat.zero_mul, Nat.zero_add] at hfold
    show parseNumRest false (ds.foldl (fun a c => a * 10 + (c - 48)) (c - 48))
      rest = some (.num (n : Int), rest)
    rw [hfold, parseNumRest_plain false n rest hrestT, mkNum_int]
    rfl

/-- The hex table stays in byte range. -/
theorem hexChar_lt (v : Nat) : hexChar v < 256 ∨ 10 ≤ v := by
  unfold hexChar
  split_ifs <;> omega

/-- Bytes of one escaped character stay in byte range. -/
theorem escByte_byteOK (b : Nat) (hb : b < 256) : ∀ c ∈ escByte b, c < 256 := by
  intro c hc
  unfold escByte at hc
  split_ifs at hc with h1 h2 h3 h4 h5 h6 h7 h8 <;>
    simp only [List.mem_cons, List.not_mem_nil, or_false] at hc
  · rcases hc with hc | hc <;> omega
  · rcases hc with hc | hc <;> omega
  · rcases hc with hc | hc <;> omega
  · rcases hc with hc | hc <;> omega
  · rcases hc with hc | hc <;> omega
  · rcases hc with hc | hc <;> omega
  · rcases hc with hc | hc <;> omega
  · rcases hc with hc | hc | hc | hc | hc | hc
    · omega
    · omega
    · omega
    · omega
    · subst hc; unfold hexChar; split_ifs <;> omega
    · subst hc; unfold hexChar; split_ifs <;> omega
  · omega

/-- Bytes of an escaped string body stay in byte range. -/
theorem escBytes_byteOK : ∀ s : Bytes, ByteOK s → ByteOK (escBytes s)
  | [], _ => by intro c hc; simp [escBytes] at hc
  | b :: s2, h => by
    have hb : b < 256 := h b (by simp)
    have ih := escBytes_byteOK s2 (fun x hx => h x (by simp [hx]))
    intro c hc
    unfold escBytes at hc
    rw [List.mem_append] at hc
    rcases hc with hc | hc
    · exact escByte_byteOK b hb c hc
    · exact ih c hc

/-- Digits of a rendered number stay in byte range. -/
theorem natLit_byteOK (n : Nat) : ByteOK (natLit n) := by
  intro c hc
  have := (natLitAux_spec (n + 1) n (by omega)).2 c hc
  omega

theorem byteOK_append {a b : Bytes} (ha : ByteOK a) (hb : ByteOK b) :
    ByteOK (a ++ b) := by
  intro c hc
  rw [List.mem_append] at hc
  rcases hc with hc | hc
  · exact ha c hc
  · exact hb c hc

theorem byteOK_cons {c : Nat} {r : Bytes} (hc : c < 256) (hr : ByteOK r) :
    ByteOK (c :: r) := by
  intro x hx
  rcases List.mem_cons.mp hx with hx | hx
  · omega
  · exact hr x hx

/-- A rendered string literal stays in byte range. -/
theorem strLit_byteOK {s : Bytes} (h : ByteOK s) : ByteOK (strLit s) := by
  unfold strLit
  exact byteOK_cons (by omega)
    (byteOK_append (escBytes_byteOK s h) (by intro x hx; simp at hx; omega))

/-- The rendered claims object stays in byte range. -/
theorem payloadBytes_byteOK (uid email : Bytes) (iat expT : Nat)
    (hu : ByteOK uid) (he : ByteOK email) :
    ByteOK (payloadBytes uid email iat expT) := by
  have kOK : ∀ s : String, ByteOK (ascii s) → ByteOK (strLit (ascii s)) :=
    fun s hs => strLit_byteOK hs
  unfold payloadBytes
  refine byteOK_cons (by omega) ?_
  refine byteOK_append (kOK _ (by unfold ByteOK; decide)) (byteOK_cons (by omega) ?_)
  refine byteOK_append (strLit_byteOK hu) (byteOK_cons (by omega) ?_)
  refine byteOK_append (kOK _ (by unfold ByteOK; decide)) (byteOK_cons (by omega) ?_)
  refine byteOK_append (strLit_byteOK he) (byteOK_cons (by omega) ?_)
  refine byteOK_append (kOK _ (by unfold ByteOK; decide)) (byteOK_cons (by omega) ?_)
  refine byteOK_append (natLit_byteOK iat) (byteOK_cons (by omega) ?_)
  refine byteOK_append (kOK _ (by unfold ByteOK; decide)) (byteOK_cons (by omega) ?_)
  refine byteOK_append (natLit_byteOK expT) (byteOK_cons (by omega) ?_)
  refine byteOK_append (kOK _ (by unfold ByteOK; decide)) (byteOK_cons (by omega) ?_)
  exact byteOK_append (strLit_byteOK hu) (by intro x hx; simp at hx; omega)

/-- The rendered protected header stays in byte range. -/
theorem headerBytes_byteOK : ByteOK headerBytes := by
  unfold ByteOK
  decide

/-- The symbolic signature stays in byte range when key and message
do. -/
theorem macBytes_byteOK {secret msg : Bytes} (hs : ByteOK secret)
    (hm : ByteOK msg) : ByteOK (macBytes secret msg) := by
  unfold macBytes
  exact byteOK_cons (by omega)
    (byteOK_append (natLit_byteOK _) (byteOK_cons (by omega)
      (byteOK_append hs (byteOK_cons (by omega) hm))))

theorem skipWs_34 (r : Bytes) : skipWs (34 :: r) = 34 :: r := by
  unfold skipWs
  simp

theorem skipWs_58 (r : Bytes) : skipWs (58 :: r) = 58 :: r := by
  unfold skipWs
  simp

theorem skipWs_44 (r : Bytes) : skipWs (44 :: r) = 44 :: r := by
  unfold skipWs
  simp

theorem skipWs_123 (r : Bytes) : skipWs (123 :: r) = 123 :: r := by
  unfold skipWs
  simp

theorem skipWs_125 (r : Bytes) : skipWs (125 :: r) = 125 :: r := by
  unfold skipWs
  simp

theorem skipWs_digit (c : Nat) (r : Bytes) (h : 48 ≤ c ∧ c ≤ 57) :
    skipWs (c :: r) = c :: r := by
  unfold skipWs
  rw [if_neg (by omega)]

/-- Parsing a rendered string literal as a JSON value. -/
theorem parseCore_val_str (f : Nat) (s rest : Bytes) :
    parseCore (f + 1) .val (34 :: (escBytes s ++ 34 :: rest)) =
      some (.str s, rest) := by
  conv_lhs => unfold parseCore
  rw [skipWs_34]
  simp [parseStrBody_escBytes]

/-- Parsing a rendered number literal as a JSON value. -/
theorem parseCore_val_nat (f n : Nat) (rest : Bytes)
    (hrest : ∀ x, rest.head? = some x →
      ¬(48 ≤ x ∧ x ≤ 57) ∧ x ≠ 46 ∧ x ≠ 101 ∧ x ≠ 69) :
    parseCore (f + 1) .val (natLit n ++ rest) =
      some (.num (n : Int), rest) := by
  obtain ⟨hne, hdig⟩ := natLitAux_spec (n + 1) n (by omega)
  have hnum := parseNumber_natLit n rest hrest
  rcases hlit : natLitAux (n + 1) n with _ | ⟨d, ds⟩
  · exact absurd hlit hne
  · have hlit2 : natLit n = d :: ds := by unfold natLit; exact hlit
    have hd := hdig d (by rw [hlit]; simp)
    rw [hlit2, List.cons_append] at hnum ⊢
    conv_lhs => unfold parseCore
    rw [skipWs_digit d _ hd]
    have hdT : isDigitB d = true := by
      simp only [isDigitB, decide_eq_true_eq]
      omega
    simp only [show ¬ d = 34 by omega, show ¬ d = 123 by omega,
      show ¬ d = 91 by omega, show ¬ d = 45 by omega, hdT,
      if_false, if_true]
    exact hnum

/-- One object member with a string value, continued by a comma. -/
theorem parseCore_objMembers_str_cont (f : Nat) (k s X : Bytes)
    (acc : List (Bytes × Json)) :
    parseCore (f + 2) (.objMembers acc)
      (34 :: (escBytes k ++ 34 :: 58 :: 34 :: (escBytes s ++ 34 :: 44 :: X)))
      = parseCore (f + 1) (.objMembers (acc ++ [(k, Json.str s)])) X := by
  conv_lhs => unfold parseCore
  rw [skipWs_34]
  simp only [parseStrBody_escBytes, skipWs_58, skipWs_44,
    parseCore_val_str]

/-- The final object member with a string value, closed by a brace. -/
theorem parseCore_objMembers_str_end (f : Nat) (k s X : Bytes)
    (acc : List (Bytes × Json)) :
    parseCore (f + 2) (.objMembers acc)
      (34 :: (escBytes k ++ 34 :: 58 :: 34 :: (escBytes s ++ 34 :: 125 :: X)))
      = some (.obj (acc ++ [(k, Json.str s)]), X) := by
  conv_lhs => unfold parseCore
  rw [skipWs_34]
  simp only [parseStrBody_escBytes, skipWs_58, skipWs_125,
    parseCore_val_str]

/-- One object member with a number value, continued by a comma. -/
theorem parseCore_objMembers_num_cont (f : Nat) (k X : Bytes) (n : Nat)
    (acc : List (Bytes × Json)) :
    parseCore (f + 2) (.objMembers acc)
      (34 :: (escBytes k ++ 34 :: 58 :: (natLit n ++ 44 :: X)))
      = parseCore (f + 1) (.objMembers (acc ++ [(k, Json.num n)])) X := by
  have hval := parseCore_val_nat f n (44 :: X)
    (fun x hx => by simp at hx; omega)
  conv_lhs => unfold parseCore
  rw [skipWs_34]
  simp only [parseStrBody_escBytes, skipWs_58, skipWs_44, hval]

/-- An opening brace plus a quoted first key starts the member list
two fuel steps down. -/
theorem parseCore_val_obj (f : Nat) (T : Bytes) :
    parseCore (f + 2) .val (123 :: (34 :: T)) =
      parseCore f (.objMembers []) (34 :: T) := by
  conv_lhs => unfold parseCore
  rw [skipWs_123]
  simp only [show ¬ (123 : Nat) = 34 by omega, if_false, if_true]
  conv_lhs => unfold parseCore
  rw [skipWs_34]

/-- Parsing the rendered claims object yields its JSON value. -/
theorem parseCore_payload (f : Nat) (uid email : Bytes) (iat expT : Nat)
    (rest : Bytes) :
    parseCore (f + 8) .val (payloadBytes uid email iat expT ++ rest) =
      some (payloadJson uid email iat expT, rest) := by
  have hnorm : payloadBytes uid email iat expT ++ rest =
      123 :: (34 :: (escBytes (ascii "userId") ++ 34 :: 58 :: 34 ::
        (escBytes uid ++ 34 :: 44 ::
      (34 :: (escBytes (ascii "email") ++ 34 :: 58 :: 34 ::
        (escBytes email ++ 34 :: 44 ::
      (34 :: (escBytes (ascii "iat") ++ 34 :: 58 :: (natLit iat ++ 44 ::
      (34 :: (escBytes (ascii "exp") ++ 34 :: 58 :: (natLit expT ++ 44 ::
      (34 :: (escBytes (ascii "sub") ++ 34 :: 58 :: 34 ::
        (escBytes uid ++ 34 :: 125 :: rest))))))))))))))) := by
    simp [payloadBytes, strLit, List.append_assoc]
  rw [hnorm]
  show parseCore ((f + 6) + 2) .val _ = _
  rw [parseCore_val_obj (f + 6)]
  show parseCore ((f + 4) + 2) (.objMembers []) _ = _
  rw [parseCore_objMembers_str_cont (f + 4)]
  show parseCore ((f + 3) + 2) (.objMembers _) _ = _
  rw [parseCore_objMembers_str_cont (f + 3)]
  show parseCore ((f + 2) + 2) (.objMembers _) _ = _
  rw [parseCore_objMembers_num_cont (f + 2)]
  show parseCore ((f + 1) + 2) (.objMembers _) _ = _
  rw [parseCore_objMembers_num_cont (f + 1)]
  show parseCore (f + 2) (.objMembers _) _ = _
  rw [parseCore_objMembers_str_end f]
  simp [payloadJson]

/-- Parsing the rendered claims object with the generous jsonParse
fuel. -/
theorem jsonParse_payload (uid email : Bytes) (iat expT : Nat) :
    jsonParse (payloadBytes uid email iat expT) =
      some (payloadJson uid email iat expT) := by
  unfold jsonParse parseVal
  have hfuel : (payloadBytes uid email iat expT).length + 16 =
      ((payloadBytes uid email iat expT).length + 8) + 8 := by omega
  rw [hfuel]
  have happ := parseCore_payload ((payloadBytes uid email iat expT).length + 8)
    uid email iat expT []
  rw [List.append_nil] at happ
  rw [happ]
  simp [skipWs]

/-- The three segments of a signed token. -/
theorem split_signCompact (secret uid email : Bytes) (iatT expS : Nat) :
    splitOnByte 46 (signCompact secret uid email iatT expS) =
      [b64urlEncode headerBytes,
       b64urlEncode (payloadBytes uid email iatT expS),
       b64urlEncode (macBytes secret (signingInput (b64urlEncode headerBytes)
         (b64urlEncode (payloadBytes uid email iatT expS))))] := by
  unfold signCompact
  exact splitOnByte_three 46 _ _ _
    (fun x hx => b64urlEncode_ne_dot _ x hx)
    (fun x hx => b64urlEncode_ne_dot _ x hx)
    (fun x hx => b64urlEncode_ne_dot _ x hx)

/-- Full behavior of the verifier on a token the issuer signed: accept
with the four claims if and only if the expiry is still in the
future. -/
theorem verifyToken_signCompact (secret uid email : Bytes)
    (iatT expS now : Nat) (hs : ByteOK secret) (hu : ByteOK uid)
    (he : ByteOK email) :
    verifyToken secret now (signCompact secret uid email iatT expS) =
      if (expS : Int) ≤ (now : Int) then none
      else some { userId := some (.str uid), email := some (.str email),
                  iat := some (.num iatT), exp := some (.num expS) } := by
  have hpOK : ByteOK (payloadBytes uid email iatT expS) :=
    payloadBytes_byteOK _ _ _ _ hu he
  have hsigOK : ByteOK (signingInput (b64urlEncode headerBytes)
      (b64urlEncode (payloadBytes uid email iatT expS))) :=
    byteOK_append (b64urlEncode_byteOK _ headerBytes_byteOK)
      (byteOK_cons (by omega) (b64urlEncode_byteOK _ hpOK))
  have h1 : b64Decode (b64urlEncode headerBytes) = headerBytes :=
    b64_roundtrip _ headerBytes_byteOK
  have h2 : jsonParse headerBytes =
      some (Json.obj [(ascii "alg", Json.str (ascii "HS256"))]) := rfl
  have h3 : b64Decode (b64urlEncode (macBytes secret
      (signingInput (b64urlEncode headerBytes)
        (b64urlEncode (payloadBytes uid email iatT expS))))) =
      macBytes secret (signingInput (b64urlEncode headerBytes)
        (b64urlEncode (payloadBytes uid email iatT expS))) :=
    b64_roundtrip _ (macBytes_byteOK hs hsigOK)
  have h4 : b64Decode (b64urlEncode (payloadBytes uid email iatT expS)) =
      payloadBytes uid email iatT expS := b64_roundtrip _ hpOK
  have h5 := jsonParse_payload uid email iatT expS
  have h6 : objLookup (payloadJson uid email iatT expS) (ascii "exp") =
      some (Json.num expS) := rfl
  have h7 : objLookup (payloadJson uid email iatT expS) (ascii "userId") =
      some (Json.str uid) := rfl
  have h8 : objLookup (payloadJson uid email iatT expS) (ascii "email") =
      some (Json.str email) := rfl
  have h9 : objLookup (payloadJson uid email iatT expS) (ascii "iat") =
      some (Json.num iatT) := rfl
  have hA : objLookup (Json.obj [(ascii "alg", Json.str (ascii "HS256"))])
      (ascii "alg") = some (Json.str (ascii "HS256")) := rfl
  unfold verifyToken
  rw [split_signCompact]
  simp [h1, h2, h3, h4, h5, h6, h7, h8, h9, hA]


/-- decodeToken on a token the issuer signed recovers the four claim
fields, whatever the secret. -/
theorem decodeToken_signCompact (secret uid email : Bytes)
    (iatT expS : Nat) (hu : ByteOK uid) (he : ByteOK email) :
    decodeToken (signCompact secret uid email iatT expS) =
      some { userId := some (.str uid), email := some (.str email),
             iat := some (.num iatT), exp := some (.num expS) } := by
  have hpOK : ByteOK (payloadBytes uid email iatT expS) :=
    payloadBytes_byteOK _ _ _ _ hu he
  have h4 : b64Decode (b64urlEncode (payloadBytes uid email iatT expS)) =
      payloadBytes uid email iatT expS := b64_roundtrip _ hpOK
  have h5 : jsonParse (payloadBytes uid email iatT expS) =
      some (Json.obj [(ascii "userId", Json.str uid),
        (ascii "email", Json.str email), (ascii "iat", Json.num iatT),
        (ascii "exp", Json.num expS), (ascii "sub", Json.str uid)]) :=
    jsonParse_payload uid email iatT expS
  have h6 : objLookup (Json.obj [(ascii "userId", Json.str uid),
      (ascii "email", Json.str email), (ascii "iat", Json.num iatT),
      (ascii "exp", Json.num expS), (ascii "sub", Json.str uid)])
      (ascii "exp") = some (Json.num expS) := rfl
  have h7 : objLookup (Json.obj [(ascii "userId", Json.str uid),
      (ascii "email", Json.str email), (ascii "iat", Json.num iatT),
      (ascii "exp", Json.num expS), (ascii "sub", Json.str uid)])
      (ascii "userId") = some (Json.str uid) := rfl
  have h8 : objLookup (Json.obj [(ascii "userId", Json.str uid),
      (ascii "email", Json.str email), (ascii "iat", Json.num iatT),
      (ascii "exp", Json.num expS), (ascii "sub", Json.str uid)])
      (ascii "email") = some (Json.str email) := rfl
  have h9 : objLookup (Json.obj [(ascii "userId", Json.str uid),
      (ascii "email", Json.str email), (ascii "iat", Json.num iatT),
      (ascii "exp", Json.num expS), (ascii "sub", Json.str uid)])
      (ascii "iat") = some (Json.num iatT) := rfl
  unfold decodeToken
  rw [split_signCompact]
  simp [h4, h5, h6, h7, h8, h9]

end CodecLemmas

section TokenClaims

open ByteCodec Jwt

/-- C6: for every signed token created by createToken with expiration
TTL T parsed from the configured duration string, verifyToken returns
the payload when checked at any time strictly before issued-at plus T,
and returns null when checked at any time strictly after. -/
theorem C6_verify_within_ttl (d : String) (T : Nat)
    (hd : parseDuration d = some T) (secret uid email : Bytes)
    (iatT checkT : Nat) (hs : ByteOK secret) (hu : ByteOK uid)
    (he : ByteOK email) :
    createToken secret d iatT uid email =
      some (signCompact secret uid email iatT (iatT + T)) ∧
    (checkT < iatT + T →
      verifyToken secret checkT (signCompact secret uid email iatT (iatT + T)) =
        some { userId := some (.str uid), email := some (.str email),
               iat := some (.num iatT), exp := some (.num (iatT + T)) }) ∧
    (iatT + T < checkT →
      verifyToken secret checkT (signCompact secret uid email iatT (iatT + T)) =
        none) := by
  refine ⟨?_, ?_, ?_⟩
  · unfold createToken
    rw [hd]
    rfl
  · intro hlt
    rw [verifyToken_signCompact secret uid email iatT (iatT + T) checkT hs hu he]
    rw [if_neg (by push_cast; omega)]
    simp [Nat.cast_add]
  · intro hgt
    rw [verifyToken_signCompact secret uid email iatT (iatT + T) checkT hs hu he]
    rw [if_pos (by push_cast; omega)]

/-- C6, witness: a token with a two-second TTL issued at time 10
verifies at time 11 and is rejected at time 13. -/
theorem C6_witness :
    createToken [7] ("2s") 10 [97] [98] =
      some (signCompact [7] [97] [98] 10 12) ∧
    verifyToken [7] 11 (signCompact [7] [97] [98] 10 12) =
      some { userId := some (.str [97]), email := some (.str [98]),
             iat := some (.num 10), exp := some (.num 12) } ∧
    verifyToken [7] 13 (signCompact [7] [97] [98] 10 12) = none := by
  have bOK7 : ByteOK [7] := by unfold ByteOK; decide
  have bOK97 : ByteOK [97] := by unfold ByteOK; decide
  have bOK98 : ByteOK [98] := by unfold ByteOK; decide
  have h11 := C6_verify_within_ttl ("2s") 2 rfl [7] [97] [98] 10 11
    bOK7 bOK97 bOK98
  have h13 := C6_verify_within_ttl ("2s") 2 rfl [7] [97] [98] 10 13
    bOK7 bOK97 bOK98
  exact ⟨h11.1, h11.2.1 (by omega), h13.2.2 (by omega)⟩

/-- C7: for any token payload with userId, email, iat and exp where
exp is greater than iat, decoding the signed token produced from that
payload returns exactly those four field values. -/
theorem C7_decode_roundtrip (secret uid email : Bytes) (iatT expS : Nat)
    (hu : ByteOK uid) (he : ByteOK email) (hlt : iatT < expS) :
    decodeToken (signCompact secret uid email iatT expS) =
      some { userId := some (.str uid), email := some (.str email),
             iat := some (.num iatT), exp := some (.num expS) } :=
  decodeToken_signCompact secret uid email iatT expS hu he

/-- C7, witness: a concrete payload survives the sign-then-decode
round trip. -/
theorem C7_witness :
    decodeToken (signCompact [5] [117] [101, 64, 120] 3 9) =
      some { userId := some (.str [117]),
             email := some (.str [101, 64, 120]),
             iat := some (.num 3), exp := some (.num 9) } :=
  C7_decode_roundtrip [5] [117] [101, 64, 120] 3 9
    (by unfold ByteOK; decide) (by unfold ByteOK; decide) (by omega)

end TokenClaims

end DiscourseAuth
